import Mathlib

/-! efibc: EFI bootloader control (drivers/firmware/efi/efibc.c)

A shallow embedding of the encode-and-write path of `efibc.c` and of its two
notifier callbacks, followed by the properties proved about it.

Conventions of the embedding.

* A `const char *` argument is a `CStr`: the bytes found at the pointer.  The
  string it denotes ends at the first zero byte, or at the end of the list
  (the list is followed by an implicit NUL), so every list is a valid C string.
* A destination `efi_char16_t *` is a `Str16Buf`: the 16-bit cells of the
  array it points to (its capacity is the length of the list) together with a
  ghost log of the indices the code stored to, in program order.  A store
  beyond the capacity changes no cell but is still logged.
* The kernel services the code calls (`kmalloc`, `efivar_entry_set_safe`,
  `pr_err`, `kfree`) are recorded as events of a trace.  The allocator and the
  variable store are an arbitrary environment `Env` consulted with the trace so
  far.
* Constants that come from kernel headers (sizes of the fields of
  `struct efi_variable`, errno values, `NOTIFY_DONE`, `SYS_RESTART`, the
  attribute bits, the loader GUID) are the fields of a parameter `Headers`.
-/

namespace Efibc

/-! ## C strings -/

/-- The bytes at a `const char *`; the string ends at the first zero byte. -/
abbrev CStr := List Nat

/-- The bytes of a string literal of the source (all of them ASCII). -/
def lit (s : String) : CStr := s.toList.map Char.toNat

/-- Modelled from the spec: the C library routine `strlen` (lib/string.c is not
among the sources): the number of bytes before the terminating NUL. -/
def strlen : CStr → Nat
  | [] => 0
  | c :: cs => if c = 0 then 0 else strlen cs + 1

/-- Modelled from the spec: the C library routine `strncmp` (lib/string.c is not
among the sources): compares at most `count` bytes, stops after a NUL common to
both strings, and returns zero exactly when no difference was met ("exact-prefix
match" when `count` is the length of the second string). -/
def strncmp (cs ct : CStr) : Nat → Int
  | 0 => 0
  | count + 1 =>
    let c1 := cs.headD 0
    let c2 := ct.headD 0
    if c1 ≠ c2 then (if c1 < c2 then -1 else 1)
    else if c1 = 0 then 0
    else strncmp cs.tail ct.tail count

/-! ## Constants of the source file -/

def REBOOT_REASON_CRASH : CStr := lit "kernel_panic"
def REBOOT_REASON_NORMAL : CStr := lit "reboot"
def REBOOT_REASON_SHUTDOWN : CStr := lit "shutdown"
def REBOOT_REASON_WATCHDOG : CStr := lit "watchdog"

def WATCHDOG_KERNEL_H : CStr := lit "Watchdog"
def WATCHDOG_KERNEL_S : CStr := lit "softlockup"
def WATCHDOG_KERNEL_D : CStr := lit "Software Watchdog"

/-- The name literal of line 87 and line 118. -/
def LoaderEntryRebootReason : CStr := lit "LoaderEntryRebootReason"
/-- The name literal of line 91. -/
def LoaderEntryOneShot : CStr := lit "LoaderEntryOneShot"

/-- The local table `watchdogs[]` of `efibc_panic_notifier_call`. -/
def watchdogs : List CStr := [WATCHDOG_KERNEL_H, WATCHDOG_KERNEL_S, WATCHDOG_KERNEL_D]

/-! ## Header constants -/

/-- Constants and type properties the source takes from kernel headers that are
not among the sources.  In Linux on x86: `sizeof_Data = 1024`,
`sizeof_VariableName = 1024`, `char_signed = true`, `EINVAL = 22`,
`ENOMEM = 12`, `NOTIFY_DONE = 0`, `SYS_RESTART = 1`, attribute bits 1, 2, 4. -/
structure Headers where
  /-- The value of `sizeof(entry->var.Data)`, in bytes. -/
  sizeof_Data : Nat
  /-- The value of `sizeof(entry->var.VariableName)`, in bytes. -/
  sizeof_VariableName : Nat
  /-- Whether plain `char` is a signed type. -/
  char_signed : Bool
  EINVAL : Nat
  ENOMEM : Nat
  NOTIFY_DONE : Int
  SYS_RESTART : Nat
  EFI_VARIABLE_NON_VOLATILE : Nat
  EFI_VARIABLE_BOOTSERVICE_ACCESS : Nat
  EFI_VARIABLE_RUNTIME_ACCESS : Nat
  LINUX_EFI_LOADER_ENTRY_GUID : List Nat
  deriving DecidableEq

/-- Modelled from the spec: `sizeof(efi_char16_t)`; the type is declared in
include/linux/efi.h, not among the sources, and the spec describes its values
as 16-bit (UTF-16-like) code units. -/
def sizeof_efi_char16_t : Nat := 2

/-- Modelled from the spec: the header constants missing from the sources
(include/linux/efi.h, errno-base.h, notifier.h, reboot.h).  The spec says only
that the payload is "a fixed-size byte buffer per variable entry" and gives no
numbers; the values here are those of Linux on x86, where `struct efi_variable`
has `u8 Data[1024]` and a `VariableName` of 1024 bytes. -/
def linux : Headers where
  sizeof_Data := 1024
  sizeof_VariableName := 1024
  char_signed := true
  EINVAL := 22
  ENOMEM := 12
  NOTIFY_DONE := 0
  SYS_RESTART := 1
  EFI_VARIABLE_NON_VOLATILE := 1
  EFI_VARIABLE_BOOTSERVICE_ACCESS := 2
  EFI_VARIABLE_RUNTIME_ACCESS := 4
  LINUX_EFI_LOADER_ENTRY_GUID :=
    [0x4a, 0x67, 0xb0, 0x82, 0x0a, 0x4c, 0x41, 0xcf, 0xb6, 0xc7, 0x44, 0x0b, 0x29, 0xbb, 0x8c, 0x4f]

/-! ## The wide encoder -/

/-- The conversion performed by the assignment `str16[i] = str[i]`: a `char`
holding the byte `c` converted to the 16-bit `efi_char16_t`.  A byte below 128
is zero-extended; with a signed `char` a byte from 128 up is sign-extended. -/
def char_to_char16 (K : Headers) (c : Nat) : Nat :=
  if K.char_signed && decide (128 ≤ c) then (c + 65280) % 65536 else c % 65536

/-- The destination of the encoder: the cells of an `efi_char16_t` array and
the ghost log of the indices stored to. -/
structure Str16Buf where
  cells : List Nat
  writes : List Nat
  deriving DecidableEq

/-- The assignment `str16[i] = v`. -/
def Str16Buf.store (b : Str16Buf) (i v : Nat) : Str16Buf :=
  { cells := b.cells.set i v, writes := b.writes ++ [i] }

/-- The `for` loop of `efibc_str_to_str16`, started at index `i` with `n`
iterations allowed; returns the final `i` and the buffer. -/
def str_to_str16_loop (K : Headers) (str : CStr) : Nat → Nat → Str16Buf → Nat × Str16Buf
  | 0, i, str16 => (i, str16)
  | n + 1, i, str16 =>
    if i < strlen str then
      str_to_str16_loop K str n (i + 1) (str16.store i (char_to_char16 K (str.getD i 0)))
    else (i, str16)

/-- The function `efibc_str_to_str16` (lines 31-39).  The loop counts `i` from 0
up to `strlen(str)`, so `strlen str` iterations are all it can make. -/
def efibc_str_to_str16 (K : Headers) (str : CStr) (str16 : Str16Buf) : Str16Buf :=
  let r := str_to_str16_loop K str (strlen str) 0 str16
  r.2.store r.1 0

/-! ## The variable writer -/

/-- The fields of `struct efivar_entry` the code touches. -/
structure efivar_entry where
  VariableName : Str16Buf
  VendorGuid : List Nat
  Data : Str16Buf
  deriving DecidableEq

/-- The arguments of one call of `efivar_entry_set_safe`. -/
structure SetRequest where
  name : Str16Buf
  vendor : List Nat
  attributes : Nat
  block : Bool
  size : Nat
  data : Str16Buf
  deriving DecidableEq

/-- What the code does to its surroundings, in program order. -/
inductive Event where
  /-- Ghost: `efibc_set_variable(name, value)` was entered. -/
  | set_variable (name value : CStr)
  /-- The `pr_err` of line 49. -/
  | pr_err_too_large (size : Nat) (name : CStr)
  /-- The `kmalloc` of line 53; `ok` is false when it returned NULL. -/
  | kmalloc (ok : Bool)
  /-- The `pr_err` of line 55. -/
  | pr_err_alloc (name : CStr)
  /-- The call of lines 63-68 and the code it returned. -/
  | efivar_entry_set_safe (req : SetRequest) (ret : Int)
  /-- The `pr_err` of line 71. -/
  | pr_err_set (name : CStr) (ret : Int)
  /-- The `kfree` of line 74. -/
  | kfree
  deriving DecidableEq

/-- The allocator and the variable store, each answering from the trace so far.
`kmalloc` returns `none` for NULL and otherwise the content the fresh memory
happens to have (cells of `VariableName`, bytes of `VendorGuid`, cells of
`Data`). -/
structure Env where
  kmalloc : List Event → Option (List Nat × List Nat × List Nat)
  efivar_entry_set_safe : List Event → SetRequest → Int

/-- An array of `cap` cells whose initial content is taken from `raw`. -/
def fresh_buf (cap : Nat) (raw : List Nat) : Str16Buf :=
  { cells := (List.range cap).map (fun i => raw.getD i 0 % 65536), writes := [] }

/-- The entry `kmalloc` returned, with the capacities of its arrays:
`VariableName` has `sizeof(VariableName) / sizeof(efi_char16_t)` cells, and
`Data`, reached through the cast `(efi_char16_t *)entry->var.Data`, has
`sizeof(Data) / sizeof(efi_char16_t)` cells. -/
def fresh_entry (K : Headers) (raw : List Nat × List Nat × List Nat) : efivar_entry :=
  { VariableName := fresh_buf (K.sizeof_VariableName / sizeof_efi_char16_t) raw.1
    VendorGuid := raw.2.1
    Data := fresh_buf (K.sizeof_Data / sizeof_efi_char16_t) raw.2.2 }

/-- The function `efibc_set_variable` (lines 41-76), run after the trace `t`;
returns its `int` result and the extended trace.  The product on line 46 is not
reduced modulo the width of `size_t`: a string in memory is shorter than half
the address space, so the product cannot wrap. -/
def efibc_set_variable (K : Headers) (E : Env) (name value : CStr) (t : List Event) :
    Int × List Event :=
  let t := t ++ [Event.set_variable name value]
  let guid := K.LINUX_EFI_LOADER_ENTRY_GUID
  let size := (strlen value + 1) * sizeof_efi_char16_t
  if size > K.sizeof_Data then
    (-(K.EINVAL : Int), t ++ [Event.pr_err_too_large size name])
  else
    match E.kmalloc t with
    | none => (-(K.ENOMEM : Int), t ++ [Event.kmalloc false, Event.pr_err_alloc name])
    | some raw =>
      let t := t ++ [Event.kmalloc true]
      let entry := fresh_entry K raw
      let entry := { entry with VariableName := efibc_str_to_str16 K name entry.VariableName }
      let entry := { entry with Data := efibc_str_to_str16 K value entry.Data }
      let entry := { entry with VendorGuid := guid }
      let req : SetRequest :=
        { name := entry.VariableName
          vendor := entry.VendorGuid
          attributes := K.EFI_VARIABLE_NON_VOLATILE ||| K.EFI_VARIABLE_BOOTSERVICE_ACCESS
            ||| K.EFI_VARIABLE_RUNTIME_ACCESS
          block := false
          size := size
          data := entry.Data }
      let ret := E.efivar_entry_set_safe t req
      let t := t ++ [Event.efivar_entry_set_safe req ret]
      let t := if ret ≠ 0 then t ++ [Event.pr_err_set name ret] else t
      (ret, t ++ [Event.kfree])

/-! ## The notifier callbacks -/

/-- The value of the local `reason` of `efibc_reboot_notifier_call` at line 87
(lines 81-85). -/
def reboot_reason (K : Headers) (event : Nat) : CStr :=
  if event = K.SYS_RESTART then REBOOT_REASON_NORMAL else REBOOT_REASON_SHUTDOWN

/-- The function `efibc_reboot_notifier_call` (lines 78-94); `data` is `none`
for a NULL pointer. -/
def efibc_reboot_notifier_call (K : Headers) (E : Env) (event : Nat) (data : Option CStr)
    (t : List Event) : Int × List Event :=
  let reason := reboot_reason K event
  let r := efibc_set_variable K E LoaderEntryRebootReason reason t
  if r.1 ≠ 0 ∨ data.isNone then
    (K.NOTIFY_DONE, r.2)
  else
    let r2 := efibc_set_variable K E LoaderEntryOneShot (data.getD []) r.2
    (K.NOTIFY_DONE, r2.2)

/-- The `for` loop of lines 110-115 over the table `ws`, with the value
`reason` has before it. -/
def watchdog_loop (str : CStr) : List CStr → CStr → CStr
  | [], reason => reason
  | w :: ws, reason =>
    if strncmp str w (strlen w) = 0 then REBOOT_REASON_WATCHDOG
    else watchdog_loop str ws reason

/-- The value of the local `reason` of `efibc_panic_notifier_call` at line 118
(lines 100-116). -/
def panic_reason (data : Option CStr) : CStr :=
  match data with
  | none => REBOOT_REASON_CRASH
  | some str => watchdog_loop str watchdogs REBOOT_REASON_CRASH

/-- The function `efibc_panic_notifier_call` (lines 96-121). -/
def efibc_panic_notifier_call (K : Headers) (E : Env) (_what : Nat) (data : Option CStr)
    (t : List Event) : Int × List Event :=
  let reason := panic_reason data
  let r := efibc_set_variable K E LoaderEntryRebootReason reason t
  (K.NOTIFY_DONE, r.2)

/-! ## Observations on traces -/

/-- The calls of `efibc_set_variable` in a trace, as (name, value) pairs. -/
def set_variable_calls : List Event → List (CStr × CStr)
  | [] => []
  | Event.set_variable name value :: t => (name, value) :: set_variable_calls t
  | _ :: t => set_variable_calls t

/-- The calls of `efivar_entry_set_safe` in a trace. -/
def store_calls : List Event → List SetRequest
  | [] => []
  | Event.efivar_entry_set_safe req _ :: t => req :: store_calls t
  | _ :: t => store_calls t

/-- The number of `kmalloc` calls in a trace. -/
def alloc_calls : List Event → Nat
  | [] => 0
  | Event.kmalloc _ :: t => alloc_calls t + 1
  | _ :: t => alloc_calls t

/-- The events a run appended to the trace `t` it started from. -/
def events_since (t after : List Event) : List Event := after.drop t.length

/-- The request `efibc_set_variable(name, value)` hands to the store when the
allocator returned memory with content `raw` (lines 59-68). -/
def request_of (K : Headers) (name value : CStr) (raw : List Nat × List Nat × List Nat) :
    SetRequest :=
  { name := efibc_str_to_str16 K name (fresh_entry K raw).VariableName
    vendor := K.LINUX_EFI_LOADER_ENTRY_GUID
    attributes := K.EFI_VARIABLE_NON_VOLATILE ||| K.EFI_VARIABLE_BOOTSERVICE_ACCESS
      ||| K.EFI_VARIABLE_RUNTIME_ACCESS
    block := false
    size := (strlen value + 1) * sizeof_efi_char16_t
    data := efibc_str_to_str16 K value (fresh_entry K raw).Data }

/-- An environment in which every allocation succeeds (the memory holds 0xAAAA
in every cell) and every store call succeeds. -/
def env_ok : Env where
  kmalloc := fun _ => some (List.replicate 512 43690, [], List.replicate 512 43690)
  efivar_entry_set_safe := fun _ _ => 0

/-- An environment in which every allocation succeeds and every store call
fails with -5 (`-EIO`). -/
def env_store_fails : Env where
  kmalloc := fun _ => some ([], [], [])
  efivar_entry_set_safe := fun _ _ => -5

/-- An environment in which every allocation fails. -/
def env_nomem : Env where
  kmalloc := fun _ => none
  efivar_entry_set_safe := fun _ _ => 0

/-- The string at a `const char *`: the bytes before the first NUL. -/
def content (s : CStr) : CStr := s.take (strlen s)

/-- The wide encoding of a string in the spec's words (4.1): each byte of the
string copied into one wide unit, zero-extended, so that the unit has the value
of the byte, followed by one wide NUL. -/
def wide_encoding (s : CStr) : List Nat := content s ++ [0]

/-- The units the code produces for a string: each byte of the string converted
as the assignment `str16[i] = str[i]` of line 36 converts it, followed by the 0
of line 38. -/
def stored_units (K : Headers) (s : CStr) : List Nat :=
  (content s).map (char_to_char16 K) ++ [0]

/-- Reading a wide string back: the units before the first wide NUL, each
truncated to its low byte. -/
def decode16 (cells : List Nat) : CStr :=
  (cells.takeWhile (fun u => decide (u ≠ 0))).map (fun u => u % 256)

/-- Letter case ignored: an ASCII capital letter mapped to its small letter. -/
def ascii_tolower (c : Nat) : Nat := if 65 ≤ c ∧ c ≤ 90 then c + 32 else c

/-! ## Lemmas on the encoder -/

theorem strlen_le_length (s : CStr) : strlen s ≤ s.length := by
  induction s with
  | nil => simp [strlen]
  | cons c cs ih =>
    simp only [strlen, List.length_cons]
    split <;> omega

theorem strlen_eq_length (s : CStr) (h : ∀ b ∈ s, b ≠ 0) : strlen s = s.length := by
  induction s with
  | nil => simp [strlen]
  | cons c cs ih =>
    have hc : c ≠ 0 := h c (List.mem_cons_self c cs)
    have ht : ∀ b ∈ cs, b ≠ 0 := fun b hb => h b (List.mem_cons_of_mem c hb)
    simp [strlen, hc, ih ht]

theorem char_to_char16_ascii (K : Headers) (c : Nat) (h : c ≤ 127) : char_to_char16 K c = c := by
  unfold char_to_char16
  have h1 : ¬ (128 ≤ c) := by omega
  simp [h1]
  omega

theorem loop_fst (K : Headers) (str : CStr) (n : Nat) :
    ∀ (i : Nat) (b : Str16Buf), i + n ≤ strlen str → (str_to_str16_loop K str n i b).1 = i + n := by
  induction n with
  | zero => intro i b _; simp [str_to_str16_loop]
  | succ n ih =>
    intro i b h
    have hi : i < strlen str := by omega
    simp only [str_to_str16_loop, hi, if_true]
    rw [ih (i + 1) _ (by omega)]
    omega

theorem loop_writes (K : Headers) (str : CStr) (n : Nat) :
    ∀ (i : Nat) (b : Str16Buf), i + n ≤ strlen str →
      (str_to_str16_loop K str n i b).2.writes = b.writes ++ List.range' i n := by
  induction n with
  | zero => intro i b _; simp [str_to_str16_loop]
  | succ n ih =>
    intro i b h
    have hi : i < strlen str := by omega
    simp only [str_to_str16_loop, hi, if_true]
    rw [ih (i + 1) _ (by omega)]
    simp [Str16Buf.store, List.range'_succ]

theorem loop_length (K : Headers) (str : CStr) (n : Nat) :
    ∀ (i : Nat) (b : Str16Buf), (str_to_str16_loop K str n i b).2.cells.length = b.cells.length := by
  induction n with
  | zero => intro i b; simp [str_to_str16_loop]
  | succ n ih =>
    intro i b
    simp only [str_to_str16_loop]
    split
    · rw [ih]; simp [Str16Buf.store]
    · rfl

theorem loop_cells (K : Headers) (str : CStr) (n : Nat) :
    ∀ (i : Nat) (b : Str16Buf) (j : Nat), i + n ≤ strlen str →
      (str_to_str16_loop K str n i b).2.cells[j]? =
        if i ≤ j ∧ j < i + n ∧ j < b.cells.length then some (char_to_char16 K (str.getD j 0))
        else b.cells[j]? := by
  induction n with
  | zero =>
    intro i b j _
    have h0 : ¬ (i ≤ j ∧ j < i + 0 ∧ j < b.cells.length) := by omega
    simp only [str_to_str16_loop, h0, if_false]
  | succ n ih =>
    intro i b j h
    have hi : i < strlen str := by omega
    simp only [str_to_str16_loop, hi, if_true]
    rw [ih (i + 1) _ j (by omega)]
    simp only [Str16Buf.store, List.length_set, List.getElem?_set]
    by_cases h1 : i = j
    · subst h1
      by_cases h2 : i < b.cells.length
      · simp [h2]
      · have h3 : b.cells.length ≤ i := by omega
        simp [h2, List.getElem?_eq_none h3]
    · by_cases h3 : i + 1 ≤ j ∧ j < i + 1 + n ∧ j < b.cells.length
      · have h4 : i ≤ j ∧ j < i + (n + 1) ∧ j < b.cells.length := by omega
        simp [h3, h4]
      · have h4 : ¬ (i ≤ j ∧ j < i + (n + 1) ∧ j < b.cells.length) := by omega
        simp [h3, h4, h1]

/-- The loop leaves through its condition: more iterations allowed change nothing. -/
theorem loop_fuel (K : Headers) (str : CStr) (n : Nat) :
    ∀ (i : Nat) (b : Str16Buf) (m : Nat), i + n = strlen str →
      str_to_str16_loop K str (n + m) i b = str_to_str16_loop K str n i b := by
  induction n with
  | zero =>
    intro i b m h
    cases m with
    | zero => rfl
    | succ m =>
      have hi : ¬ (i < strlen str) := by omega
      simp [str_to_str16_loop, hi]
  | succ n ih =>
    intro i b m h
    have hi : i < strlen str := by omega
    have e : n + 1 + m = (n + m) + 1 := by omega
    rw [e]
    simp only [str_to_str16_loop, hi, if_true]
    exact ih (i + 1) _ m (by omega)

theorem str16_writes (K : Headers) (str : CStr) (b : Str16Buf) :
    (efibc_str_to_str16 K str b).writes = b.writes ++ List.range (strlen str + 1) := by
  simp only [efibc_str_to_str16, Str16Buf.store]
  rw [loop_writes K str (strlen str) 0 b (by omega), loop_fst K str (strlen str) 0 b (by omega)]
  rw [List.range_eq_range', List.range'_concat]
  simp

theorem str16_length (K : Headers) (str : CStr) (b : Str16Buf) :
    (efibc_str_to_str16 K str b).cells.length = b.cells.length := by
  simp [efibc_str_to_str16, Str16Buf.store, loop_length]

theorem str16_cells (K : Headers) (str : CStr) (b : Str16Buf) (j : Nat) :
    (efibc_str_to_str16 K str b).cells[j]? =
      if j < b.cells.length ∧ j ≤ strlen str then
        (if j < strlen str then some (char_to_char16 K (str.getD j 0)) else some 0)
      else b.cells[j]? := by
  have e1 : (str_to_str16_loop K str (strlen str) 0 b).1 = strlen str := by
    rw [loop_fst K str (strlen str) 0 b (by omega)]; omega
  have e2 := loop_cells K str (strlen str) 0 b j (by omega)
  simp only [Nat.zero_add, Nat.zero_le, true_and] at e2
  simp only [efibc_str_to_str16, Str16Buf.store, e1, List.getElem?_set, loop_length, e2]
  by_cases h1 : strlen str = j
  · subst h1
    by_cases h4 : strlen str < b.cells.length
    · simp [h4]
    · have h6 : b.cells.length ≤ strlen str := by omega
      simp [h4, List.getElem?_eq_none h6]
  · by_cases h5 : j < strlen str
    · have h6 : j ≤ strlen str := by omega
      simp [h1, h5, h6]
    · have h6 : ¬ (j ≤ strlen str) := by omega
      simp [h1, h5, h6]

/-! ## Lemmas on traces and on the writer -/

theorem set_variable_calls_append (t u : List Event) :
    set_variable_calls (t ++ u) = set_variable_calls t ++ set_variable_calls u := by
  induction t with
  | nil => rfl
  | cons e t ih => cases e <;> simp [set_variable_calls, ih]

theorem store_calls_append (t u : List Event) :
    store_calls (t ++ u) = store_calls t ++ store_calls u := by
  induction t with
  | nil => rfl
  | cons e t ih => cases e <;> simp [store_calls, ih]

theorem alloc_calls_append (t u : List Event) :
    alloc_calls (t ++ u) = alloc_calls t + alloc_calls u := by
  induction t with
  | nil => simp [alloc_calls]
  | cons e t ih => cases e <;> simp [alloc_calls, ih]; omega

theorem events_since_append (t u : List Event) : events_since t (t ++ u) = u := by
  simp [events_since]

/-- The run of `efibc_set_variable` that fails the size check. -/
theorem set_variable_too_large (K : Headers) (E : Env) (name value : CStr) (t : List Event)
    (h : (strlen value + 1) * sizeof_efi_char16_t > K.sizeof_Data) :
    efibc_set_variable K E name value t =
      (-(K.EINVAL : Int),
        t ++ [Event.set_variable name value,
              Event.pr_err_too_large ((strlen value + 1) * sizeof_efi_char16_t) name]) := by
  simp [efibc_set_variable, h]

/-- The run of `efibc_set_variable` in which `kmalloc` returns NULL. -/
theorem set_variable_nomem (K : Headers) (E : Env) (name value : CStr) (t : List Event)
    (h : ¬ (strlen value + 1) * sizeof_efi_char16_t > K.sizeof_Data)
    (hk : E.kmalloc (t ++ [Event.set_variable name value]) = none) :
    efibc_set_variable K E name value t =
      (-(K.ENOMEM : Int),
        t ++ [Event.set_variable name value, Event.kmalloc false, Event.pr_err_alloc name]) := by
  simp [efibc_set_variable, h, hk]

/-- The run of `efibc_set_variable` that reaches the store. -/
theorem set_variable_store (K : Headers) (E : Env) (name value : CStr) (t : List Event)
    (raw : List Nat × List Nat × List Nat)
    (h : ¬ (strlen value + 1) * sizeof_efi_char16_t > K.sizeof_Data)
    (hk : E.kmalloc (t ++ [Event.set_variable name value]) = some raw) :
    efibc_set_variable K E name value t =
      (E.efivar_entry_set_safe (t ++ [Event.set_variable name value, Event.kmalloc true])
          (request_of K name value raw),
        t ++ ([Event.set_variable name value, Event.kmalloc true,
              Event.efivar_entry_set_safe (request_of K name value raw)
                (E.efivar_entry_set_safe
                  (t ++ [Event.set_variable name value, Event.kmalloc true])
                  (request_of K name value raw))] ++
          (if E.efivar_entry_set_safe
                (t ++ [Event.set_variable name value, Event.kmalloc true])
                (request_of K name value raw) ≠ 0
            then [Event.pr_err_set name
                (E.efivar_entry_set_safe
                  (t ++ [Event.set_variable name value, Event.kmalloc true])
                  (request_of K name value raw))]
            else []) ++ [Event.kfree])) := by
  simp only [efibc_set_variable, h, hk, if_false, request_of, List.append_assoc,
    List.singleton_append, List.cons_append, List.nil_append]
  split <;> simp

/-- Every run of `efibc_set_variable` logs exactly one entry into the function. -/
theorem set_variable_one_call (K : Headers) (E : Env) (name value : CStr) (t : List Event) :
    set_variable_calls (efibc_set_variable K E name value t).2 =
      set_variable_calls t ++ [(name, value)] := by
  by_cases h : (strlen value + 1) * sizeof_efi_char16_t > K.sizeof_Data
  · rw [set_variable_too_large K E name value t h]
    simp [set_variable_calls_append, set_variable_calls]
  · cases hk : E.kmalloc (t ++ [Event.set_variable name value]) with
    | none =>
      rw [set_variable_nomem K E name value t h hk]
      simp [set_variable_calls_append, set_variable_calls]
    | some raw =>
      rw [set_variable_store K E name value t raw h hk]
      split <;> simp [set_variable_calls_append, set_variable_calls]

/-- Every run of `efibc_set_variable` extends the trace it was given. -/
theorem set_variable_extends (K : Headers) (E : Env) (name value : CStr) (t : List Event) :
    ∃ u, (efibc_set_variable K E name value t).2 = t ++ u := by
  by_cases h : (strlen value + 1) * sizeof_efi_char16_t > K.sizeof_Data
  · rw [set_variable_too_large K E name value t h]; exact ⟨_, rfl⟩
  · cases hk : E.kmalloc (t ++ [Event.set_variable name value]) with
    | none => rw [set_variable_nomem K E name value t h hk]; exact ⟨_, rfl⟩
    | some raw => rw [set_variable_store K E name value t raw h hk]; exact ⟨_, rfl⟩

/-- The store calls of one run of `efibc_set_variable`: none, or the single
request built from the memory the allocator returned. -/
theorem set_variable_store_calls (K : Headers) (E : Env) (name value : CStr) (t : List Event) :
    store_calls (events_since t (efibc_set_variable K E name value t).2) =
      if (strlen value + 1) * sizeof_efi_char16_t > K.sizeof_Data then []
      else match E.kmalloc (t ++ [Event.set_variable name value]) with
        | none => []
        | some raw => [request_of K name value raw] := by
  by_cases h : (strlen value + 1) * sizeof_efi_char16_t > K.sizeof_Data
  · rw [set_variable_too_large K E name value t h, events_since_append]
    simp [h, store_calls]
  · cases hk : E.kmalloc (t ++ [Event.set_variable name value]) with
    | none =>
      rw [set_variable_nomem K E name value t h hk, events_since_append]
      simp [h, store_calls]
    | some raw =>
      rw [set_variable_store K E name value t raw h hk, events_since_append]
      split <;> simp [h, store_calls, store_calls_append]

theorem fresh_buf_length (cap : Nat) (raw : List Nat) : (fresh_buf cap raw).cells.length = cap := by
  simp [fresh_buf]

/-! ## Lemmas on the classification -/

/-- With the length of a NUL-free second string as the count, `strncmp` returns
zero exactly when the second string starts the first. -/
theorem strncmp_eq_zero_iff (w : CStr) (hw : ∀ b ∈ w, b ≠ 0) :
    ∀ s : CStr, strncmp s w (strlen w) = 0 ↔ w <+: s := by
  induction w with
  | nil => intro s; simp [strlen, strncmp]
  | cons c cs ih =>
    intro s
    have hc : c ≠ 0 := hw c (List.mem_cons_self c cs)
    have ht : ∀ b ∈ cs, b ≠ 0 := fun b hb => hw b (List.mem_cons_of_mem c hb)
    cases s with
    | nil =>
      have h0 : ¬ (0 = c) := fun e => hc e.symm
      simp only [strlen, hc, if_false, strncmp, List.headD_nil, List.headD_cons, ne_eq, h0,
        not_false_eq_true, if_true]
      constructor
      · intro h; split at h <;> simp at h
      · intro h; simp at h
    | cons a s =>
      simp only [strlen, hc, if_false, strncmp, List.headD_cons, ne_eq, List.tail_cons,
        List.cons_prefix_cons]
      by_cases hac : a = c
      · subst hac
        simp [hc, ih ht s]
      · have hca : ¬ (c = a) := fun e => hac e.symm
        simp only [hac, hca, not_false_eq_true, if_true, false_and, iff_false]
        split <;> simp

theorem watchdog_loop_table (s : CStr) :
    watchdog_loop s watchdogs REBOOT_REASON_CRASH =
      if strncmp s WATCHDOG_KERNEL_H (strlen WATCHDOG_KERNEL_H) = 0 then REBOOT_REASON_WATCHDOG
      else if strncmp s WATCHDOG_KERNEL_S (strlen WATCHDOG_KERNEL_S) = 0 then REBOOT_REASON_WATCHDOG
      else if strncmp s WATCHDOG_KERNEL_D (strlen WATCHDOG_KERNEL_D) = 0 then REBOOT_REASON_WATCHDOG
      else REBOOT_REASON_CRASH := by
  simp [watchdogs, watchdog_loop]

/-! ## Lemmas on the notifier callbacks -/

theorem names_differ : LoaderEntryRebootReason ≠ LoaderEntryOneShot := by decide

theorem set_variable_calls_since (K : Headers) (E : Env) (name value : CStr) (t : List Event) :
    set_variable_calls (events_since t (efibc_set_variable K E name value t).2)
      = [(name, value)] := by
  obtain ⟨u, hu⟩ := set_variable_extends K E name value t
  have h := set_variable_one_call K E name value t
  rw [hu, set_variable_calls_append] at h
  rw [hu, events_since_append]
  exact List.append_cancel_left h

theorem store_calls_since_le_one (K : Headers) (E : Env) (name value : CStr) (t : List Event) :
    (store_calls (events_since t (efibc_set_variable K E name value t).2)).length ≤ 1 := by
  rw [set_variable_store_calls]
  split
  · simp
  · split <;> simp

/-- The trace of the reboot callback when it stops after the first write. -/
theorem reboot_trace_one (K : Headers) (E : Env) (event : Nat) (data : Option CStr)
    (t : List Event)
    (h : (efibc_set_variable K E LoaderEntryRebootReason (reboot_reason K event) t).1 ≠ 0
      ∨ data = none) :
    (efibc_reboot_notifier_call K E event data t).2 =
      (efibc_set_variable K E LoaderEntryRebootReason (reboot_reason K event) t).2 := by
  have h2 : (efibc_set_variable K E LoaderEntryRebootReason (reboot_reason K event) t).1 ≠ 0
      ∨ data.isNone = true := by
    rcases h with h | h
    · exact Or.inl h
    · exact Or.inr (by simp [h])
  simp only [efibc_reboot_notifier_call]
  rw [if_pos h2]

/-- The trace of the reboot callback when it goes on to the second write. -/
theorem reboot_trace_two (K : Headers) (E : Env) (event : Nat) (s : CStr) (t : List Event)
    (h : (efibc_set_variable K E LoaderEntryRebootReason (reboot_reason K event) t).1 = 0) :
    (efibc_reboot_notifier_call K E event (some s) t).2 =
      (efibc_set_variable K E LoaderEntryOneShot s
        (efibc_set_variable K E LoaderEntryRebootReason (reboot_reason K event) t).2).2 := by
  simp [efibc_reboot_notifier_call, h]

/-! ## Lemmas on the encoding as a list -/

theorem content_length (s : CStr) : (content s).length = strlen s := by
  simp [content, strlen_le_length]

theorem content_getElem? (s : CStr) (j : Nat) (h : j < strlen s) :
    (content s)[j]? = some (s.getD j 0) := by
  have hl : j < s.length := Nat.lt_of_lt_of_le h (strlen_le_length s)
  simp [content, List.getElem?_take, h, List.getD_eq_getElem?_getD, List.getElem?_eq_getElem hl]

theorem content_eq_self (s : CStr) (h : ∀ b ∈ s, b ≠ 0) : content s = s := by
  simp [content, strlen_eq_length s h]

/-- The cells after a run of the encoder on a destination that can hold the
string and its terminator. -/
theorem str16_cells_eq (K : Headers) (str : CStr) (b : Str16Buf)
    (h : strlen str < b.cells.length) :
    (efibc_str_to_str16 K str b).cells =
      (content str).map (char_to_char16 K) ++ 0 :: b.cells.drop (strlen str + 1) := by
  apply List.ext_getElem?
  intro j
  rw [str16_cells, List.getElem?_append, List.length_map, content_length]
  by_cases h1 : j < strlen str
  · have h2 : j < b.cells.length ∧ j ≤ strlen str := by omega
    simp [h1, h2, content_getElem? str j h1]
  · by_cases h2 : j = strlen str
    · subst h2
      simp [h]
    · have h3 : ¬ (j < b.cells.length ∧ j ≤ strlen str) := by omega
      obtain ⟨k, hk⟩ : ∃ k, j - strlen str = k + 1 := ⟨j - strlen str - 1, by omega⟩
      simp only [h1, h3, if_false, hk, List.getElem?_cons_succ, List.getElem?_drop]
      congr 1
      omega

/-- The first `len + 1` cells after a run of the encoder are the stored units. -/
theorem str16_take (K : Headers) (str : CStr) (b : Str16Buf)
    (h : strlen str < b.cells.length) :
    (efibc_str_to_str16 K str b).cells.take (strlen str + 1) = stored_units K str := by
  rw [str16_cells_eq K str b h, stored_units]
  have hl : ((content str).map (char_to_char16 K)).length = strlen str := by
    rw [List.length_map, content_length]
  rw [List.take_append_eq_append_take, hl]
  simp [List.take_of_length_le (Nat.le_succ_of_le (Nat.le_of_eq hl))]

theorem map_char_to_char16_ascii (K : Headers) (s : CStr) (h : ∀ b ∈ s, b ≤ 127) :
    s.map (char_to_char16 K) = s := by
  induction s with
  | nil => rfl
  | cons c cs ih =>
    have hc : c ≤ 127 := h c (List.mem_cons_self c cs)
    have ht : ∀ b ∈ cs, b ≤ 127 := fun b hb => h b (List.mem_cons_of_mem c hb)
    simp [char_to_char16_ascii K c hc, ih ht]

/-- The units stored for a NUL-free ASCII string are the string followed by 0. -/
theorem stored_units_ascii (K : Headers) (s : CStr) (h : ∀ b ∈ s, 1 ≤ b ∧ b ≤ 127) :
    stored_units K s = s ++ [0] := by
  have h0 : ∀ b ∈ s, b ≠ 0 := fun b hb => by have := h b hb; omega
  rw [stored_units, content_eq_self s h0, map_char_to_char16_ascii K s (fun b hb => (h b hb).2)]

/-- The wide encoding of a NUL-free string is the string followed by 0. -/
theorem wide_encoding_nul_free (s : CStr) (h : ∀ b ∈ s, b ≠ 0) :
    wide_encoding s = s ++ [0] := by
  rw [wide_encoding, content_eq_self s h]

/-- On a string of ASCII bytes the code stores the spec's wide encoding. -/
theorem stored_units_eq_wide_encoding (K : Headers) (s : CStr) (h : ∀ b ∈ s, b ≤ 127) :
    stored_units K s = wide_encoding s := by
  have hc : ∀ b ∈ content s, b ≤ 127 := fun b hb => h b (List.mem_of_mem_take hb)
  rw [stored_units, wide_encoding, map_char_to_char16_ascii K (content s) hc]

theorem strlen_replicate (n c : Nat) (hc : c ≠ 0) : strlen (List.replicate n c) = n := by
  rw [strlen_eq_length _ (by intro b hb; rw [List.eq_of_mem_replicate hb]; exact hc),
    List.length_replicate]

/-- The events of the run of `efibc_set_variable` that reaches the store. -/
theorem set_variable_store_events (K : Headers) (E : Env) (name value : CStr) (t : List Event)
    (raw : List Nat × List Nat × List Nat)
    (h : ¬ (strlen value + 1) * sizeof_efi_char16_t > K.sizeof_Data)
    (hk : E.kmalloc (t ++ [Event.set_variable name value]) = some raw) :
    events_since t (efibc_set_variable K E name value t).2 =
      [Event.set_variable name value, Event.kmalloc true,
        Event.efivar_entry_set_safe (request_of K name value raw)
          (efibc_set_variable K E name value t).1] ++
      (if (efibc_set_variable K E name value t).1 ≠ 0
        then [Event.pr_err_set name (efibc_set_variable K E name value t).1] else []) ++
      [Event.kfree] := by
  rw [set_variable_store K E name value t raw h hk, events_since_append]

/-! ## Lemmas on the requests of the handlers -/

/-- A request among the store calls of a run of `efibc_set_variable` is the
request built from the allocated memory, and the value passed the size check. -/
theorem set_variable_store_mem (K : Headers) (E : Env) (name value : CStr) (t : List Event)
    (req : SetRequest)
    (h : req ∈ store_calls (events_since t (efibc_set_variable K E name value t).2)) :
    ¬ (strlen value + 1) * sizeof_efi_char16_t > K.sizeof_Data ∧
    ∃ raw, E.kmalloc (t ++ [Event.set_variable name value]) = some raw ∧
      req = request_of K name value raw := by
  rw [set_variable_store_calls] at h
  by_cases hs : (strlen value + 1) * sizeof_efi_char16_t > K.sizeof_Data
  · simp [hs] at h
  · cases hk : E.kmalloc (t ++ [Event.set_variable name value]) with
    | none => simp [hs, hk] at h
    | some raw =>
      simp only [hs, hk, if_false, List.mem_singleton] at h
      exact ⟨hs, raw, rfl, h⟩

/-- The payload of a request whose value passed the size check. -/
theorem request_data_encoding (K : Headers) (name value : CStr)
    (raw : List Nat × List Nat × List Nat)
    (hs : ¬ (strlen value + 1) * sizeof_efi_char16_t > K.sizeof_Data) :
    (request_of K name value raw).data.cells.take
        ((request_of K name value raw).size / sizeof_efi_char16_t)
      = stored_units K value := by
  have hcap : strlen value < K.sizeof_Data / sizeof_efi_char16_t := by
    simp only [sizeof_efi_char16_t] at hs ⊢
    omega
  have e : (request_of K name value raw).size / sizeof_efi_char16_t = strlen value + 1 := by
    simp [request_of, sizeof_efi_char16_t]
  rw [e]
  exact str16_take K value _ (by rw [fresh_entry, fresh_buf_length]; exact hcap)

/-- The name buffer of a LoaderEntryOneShot request never reads as
LoaderEntryRebootReason: cell 11 holds "O", not "R", or does not exist. -/
theorem oneshot_name_differs (K : Headers) (value : CStr)
    (raw : List Nat × List Nat × List Nat) :
    (request_of K LoaderEntryOneShot value raw).name.cells.take 24
      ≠ wide_encoding LoaderEntryRebootReason := by
  intro h
  have h11 := congrArg (fun l => l[11]?) h
  have hw : wide_encoding LoaderEntryRebootReason = LoaderEntryRebootReason ++ [0] :=
    wide_encoding_nul_free _ (by decide)
  have hr : (LoaderEntryRebootReason ++ [0])[11]? = some 82 := by decide
  have hlen : strlen LoaderEntryOneShot = 18 := by decide
  have hget : List.getD LoaderEntryOneShot 11 0 = 79 := by decide
  simp only [hw, hr, request_of, List.getElem?_take, str16_cells, hlen, hget,
    char_to_char16_ascii K 79 (by decide), fresh_entry, fresh_buf_length] at h11
  by_cases hc : 11 < K.sizeof_VariableName / sizeof_efi_char16_t
  · simp [hc] at h11
  · have hn : (fresh_buf (K.sizeof_VariableName / sizeof_efi_char16_t) raw.1).cells[11]?
        = none := by
      apply List.getElem?_eq_none
      rw [fresh_buf_length]
      omega
    simp [hc, hn] at h11

theorem reboot_reason_cases (K : Headers) (event : Nat) :
    reboot_reason K event = lit "reboot" ∨ reboot_reason K event = lit "shutdown" := by
  unfold reboot_reason
  split
  · exact Or.inl rfl
  · exact Or.inr rfl

theorem panic_reason_cases (data : Option CStr) :
    panic_reason data = lit "kernel_panic" ∨ panic_reason data = lit "watchdog" := by
  cases data with
  | none => exact Or.inl rfl
  | some s =>
    simp only [panic_reason, watchdog_loop_table]
    split
    · exact Or.inr rfl
    · split
      · exact Or.inr rfl
      · split
        · exact Or.inr rfl
        · exact Or.inl rfl

/-- The trace of the reboot callback: the run of the first write, followed or
not by the run of the second write on the one-shot string. -/
theorem reboot_trace_cases (K : Headers) (E : Env) (event : Nat) (data : Option CStr)
    (t : List Event) :
    events_since t (efibc_reboot_notifier_call K E event data t).2 =
        events_since t (efibc_set_variable K E LoaderEntryRebootReason
          (reboot_reason K event) t).2 ∨
    ∃ s, data = some s ∧
      (efibc_set_variable K E LoaderEntryRebootReason (reboot_reason K event) t).1 = 0 ∧
      events_since t (efibc_reboot_notifier_call K E event data t).2 =
        events_since t (efibc_set_variable K E LoaderEntryRebootReason
          (reboot_reason K event) t).2 ++
        events_since (efibc_set_variable K E LoaderEntryRebootReason (reboot_reason K event) t).2
          (efibc_set_variable K E LoaderEntryOneShot s
            (efibc_set_variable K E LoaderEntryRebootReason (reboot_reason K event) t).2).2 := by
  by_cases h : (efibc_set_variable K E LoaderEntryRebootReason (reboot_reason K event) t).1 ≠ 0
      ∨ data = none
  · left
    rw [reboot_trace_one K E event data t h]
  · right
    obtain ⟨h1, h2⟩ := not_or.mp h
    obtain ⟨s, rfl⟩ := Option.ne_none_iff_exists'.mp h2
    refine ⟨s, rfl, not_not.mp h1, ?_⟩
    rw [reboot_trace_two K E event s t (not_not.mp h1)]
    obtain ⟨u, hu⟩ := set_variable_extends K E LoaderEntryRebootReason (reboot_reason K event) t
    obtain ⟨v, hv⟩ := set_variable_extends K E LoaderEntryOneShot s
      (efibc_set_variable K E LoaderEntryRebootReason (reboot_reason K event) t).2
    rw [hv, events_since_append, hu, events_since_append, List.append_assoc, events_since_append]

/-! ## Lemmas on the watchdog table -/

/-- The loop over any table yields the watchdog reason exactly when some entry
of the table passes the `strncmp` test. -/
theorem watchdog_loop_any (s : CStr) (ws : List CStr) (reason : CStr) :
    watchdog_loop s ws reason =
      if ws.any (fun w => decide (strncmp s w (strlen w) = 0)) then REBOOT_REASON_WATCHDOG
      else reason := by
  induction ws with
  | nil => simp [watchdog_loop]
  | cons w ws ih =>
    simp only [watchdog_loop, List.any_cons, ih]
    by_cases h : strncmp s w (strlen w) = 0
    · simp [h]
    · simp [h]

theorem any_perm (p : CStr → Bool) (l₁ l₂ : List CStr) (h : l₁.Perm l₂) :
    l₁.any p = l₂.any p := by
  rw [Bool.eq_iff_iff, List.any_eq_true, List.any_eq_true]
  constructor
  · rintro ⟨x, hx, hp⟩; exact ⟨x, h.mem_iff.mp hx, hp⟩
  · rintro ⟨x, hx, hp⟩; exact ⟨x, h.mem_iff.mpr hx, hp⟩

/-- No signature at the start of the context: the loop finds nothing. -/
theorem panic_reason_no_signature (s : CStr) (h : ∀ w ∈ watchdogs, ¬ w <+: s) :
    panic_reason (some s) = REBOOT_REASON_CRASH := by
  have hH := strncmp_eq_zero_iff WATCHDOG_KERNEL_H (by decide) s
  have hS := strncmp_eq_zero_iff WATCHDOG_KERNEL_S (by decide) s
  have hD := strncmp_eq_zero_iff WATCHDOG_KERNEL_D (by decide) s
  have h1 : ¬ WATCHDOG_KERNEL_H <+: s := h _ (by simp [watchdogs])
  have h2 : ¬ WATCHDOG_KERNEL_S <+: s := h _ (by simp [watchdogs])
  have h3 : ¬ WATCHDOG_KERNEL_D <+: s := h _ (by simp [watchdogs])
  simp only [panic_reason, watchdog_loop_table, hH, hS, hD, h1, h2, h3, if_false]

/-! ## Lemmas on the size check, the name buffer and decoding -/

/-- A "too large" message in a run of `efibc_set_variable` names the variable
of that run and comes from a failed size check. -/
theorem too_large_event (K : Headers) (E : Env) (name value : CStr) (t : List Event)
    (size : Nat) (n : CStr)
    (h : Event.pr_err_too_large size n ∈ events_since t (efibc_set_variable K E name value t).2) :
    n = name ∧ (strlen value + 1) * sizeof_efi_char16_t > K.sizeof_Data := by
  by_cases hs : (strlen value + 1) * sizeof_efi_char16_t > K.sizeof_Data
  · rw [set_variable_too_large K E name value t hs, events_since_append] at h
    simp only [List.mem_cons, List.mem_singleton, List.not_mem_nil, or_false] at h
    rcases h with h | h
    · cases h
    · cases h
      exact ⟨rfl, hs⟩
  · cases hk : E.kmalloc (t ++ [Event.set_variable name value]) with
    | none =>
      rw [set_variable_nomem K E name value t hs hk, events_since_append] at h
      simp at h
    | some raw =>
      rw [set_variable_store K E name value t raw hs hk, events_since_append] at h
      split at h <;> simp at h

theorem canonical_reason_sizes :
    strlen REBOOT_REASON_CRASH = 12 ∧ strlen REBOOT_REASON_NORMAL = 6 ∧
    strlen REBOOT_REASON_SHUTDOWN = 8 ∧ strlen REBOOT_REASON_WATCHDOG = 8 := by
  decide

theorem reboot_reason_fits (K : Headers) (event : Nat) (h : 26 ≤ K.sizeof_Data) :
    ¬ (strlen (reboot_reason K event) + 1) * sizeof_efi_char16_t > K.sizeof_Data := by
  obtain ⟨_, h2, h3, _⟩ := canonical_reason_sizes
  unfold reboot_reason
  split
  · rw [h2]; simp only [sizeof_efi_char16_t]; omega
  · rw [h3]; simp only [sizeof_efi_char16_t]; omega

theorem panic_reason_fits (K : Headers) (data : Option CStr) (h : 26 ≤ K.sizeof_Data) :
    ¬ (strlen (panic_reason data) + 1) * sizeof_efi_char16_t > K.sizeof_Data := by
  obtain ⟨h1, _, _, h4⟩ := canonical_reason_sizes
  rcases panic_reason_cases data with e | e
  · rw [e]; change ¬ (strlen REBOOT_REASON_CRASH + 1) * sizeof_efi_char16_t > K.sizeof_Data
    rw [h1]; simp only [sizeof_efi_char16_t]; omega
  · rw [e]; change ¬ (strlen REBOOT_REASON_WATCHDOG + 1) * sizeof_efi_char16_t > K.sizeof_Data
    rw [h4]; simp only [sizeof_efi_char16_t]; omega

/-- The indices the encoder of the name stored to, whatever the capacity. -/
theorem request_name_writes (K : Headers) (name value : CStr)
    (raw : List Nat × List Nat × List Nat) :
    (request_of K name value raw).name.writes = List.range (strlen name + 1) := by
  simp [request_of, str16_writes, fresh_entry, fresh_buf]

theorem request_name_length (K : Headers) (name value : CStr)
    (raw : List Nat × List Nat × List Nat) :
    (request_of K name value raw).name.cells.length
      = K.sizeof_VariableName / sizeof_efi_char16_t := by
  simp [request_of, str16_length, fresh_entry, fresh_buf_length]

/-- The cells after encoding a NUL-free ASCII string. -/
theorem str16_cells_ascii (K : Headers) (s : CStr) (out : Str16Buf)
    (hs : ∀ b ∈ s, 1 ≤ b ∧ b ≤ 127) (hN : s.length < out.cells.length) :
    (efibc_str_to_str16 K s out).cells = s ++ 0 :: out.cells.drop (s.length + 1) := by
  have h0 : ∀ b ∈ s, b ≠ 0 := fun b hb => by have := hs b hb; omega
  have hlen : strlen s = s.length := strlen_eq_length s h0
  rw [str16_cells_eq K s out (by rw [hlen]; exact hN), hlen, content_eq_self s h0,
    map_char_to_char16_ascii K s (fun b hb => (hs b hb).2)]

theorem decode16_append (s : CStr) (rest : List Nat) (hs : ∀ b ∈ s, 1 ≤ b ∧ b ≤ 127) :
    decode16 (s ++ 0 :: rest) = s := by
  induction s with
  | nil => simp [decode16]
  | cons c cs ih =>
    have hc := hs c (List.mem_cons_self c cs)
    have ht : ∀ b ∈ cs, 1 ≤ b ∧ b ≤ 127 := fun b hb => hs b (List.mem_cons_of_mem c hb)
    have hne : c ≠ 0 := by omega
    have hmod : c % 256 = c := by omega
    have ih2 := ih ht
    simp only [decode16] at ih2 ⊢
    simp only [List.cons_append, List.takeWhile_cons, hne, ne_eq, not_false_eq_true,
      decide_True, if_true, List.map_cons, hmod]
    rw [ih2]

/-! ## The claims -/

/-- C1: for a NUL-free ASCII string `s` (every byte in 1..127) and a destination
with more than `len(s)` cells, `efibc_str_to_str16` stores to exactly the indices
0..len(s) in this order, cell `i < len(s)` receives the byte `s[i]` zero-extended,
cell `len(s)` receives the wide NUL, and the cells above `len(s)` keep their
content. -/
theorem C1_str_to_str16_ascii (K : Headers) (s : CStr) (out : Str16Buf)
    (hs : ∀ b ∈ s, 1 ≤ b ∧ b ≤ 127) (hN : s.length < out.cells.length) :
    (efibc_str_to_str16 K s out).writes = out.writes ++ List.range (s.length + 1) ∧
    (efibc_str_to_str16 K s out).cells = s ++ 0 :: out.cells.drop (s.length + 1) := by
  have hlen : strlen s = s.length := strlen_eq_length s (fun b hb => by have := hs b hb; omega)
  refine ⟨by rw [str16_writes, hlen], ?_⟩
  apply List.ext_getElem?
  intro j
  rw [str16_cells, hlen, List.getElem?_append]
  by_cases h1 : j < s.length
  · have h2 : j < out.cells.length ∧ j ≤ s.length := by omega
    have h3 : s[j] ≤ 127 := (hs _ (List.getElem_mem h1)).2
    simp [h1, h2, List.getD_eq_getElem?_getD, List.getElem?_eq_getElem h1,
      char_to_char16_ascii K _ h3]
  · by_cases h2 : j = s.length
    · subst h2
      simp [hN]
    · have h3 : ¬ (j < out.cells.length ∧ j ≤ s.length) := by omega
      obtain ⟨k, hk⟩ : ∃ k, j - s.length = k + 1 := ⟨j - s.length - 1, by omega⟩
      simp only [h1, h3, if_false, hk, List.getElem?_cons_succ, List.getElem?_drop]
      congr 1
      omega

theorem C1_str_to_str16_ascii_witness :
    (efibc_str_to_str16 linux (lit "reboot") ⟨[7, 7, 7, 7, 7, 7, 7, 7, 7], [3]⟩).writes
        = [3] ++ List.range ((lit "reboot").length + 1) ∧
    (efibc_str_to_str16 linux (lit "reboot") ⟨[7, 7, 7, 7, 7, 7, 7, 7, 7], [3]⟩).cells
        = lit "reboot" ++ 0 :: List.drop ((lit "reboot").length + 1) [7, 7, 7, 7, 7, 7, 7, 7, 7] :=
  C1_str_to_str16_ascii linux (lit "reboot") ⟨[7, 7, 7, 7, 7, 7, 7, 7, 7], [3]⟩
    (by decide) (by decide)

/-- C2: when the encoded size `(len(value)+1) * sizeof(efi_char16_t)` exceeds
`sizeof(entry->var.Data)`, `efibc_set_variable(name, value)` returns `-EINVAL`
(different from success and from the allocation error whenever the errno
constants are) having done nothing but log the error: no `kmalloc`, hence no
entry to encode into, and no call of `efivar_entry_set_safe`. -/
theorem C2_too_large_no_store (K : Headers) (E : Env) (name value : CStr) (t : List Event)
    (h : (strlen value + 1) * sizeof_efi_char16_t > K.sizeof_Data) :
    (efibc_set_variable K E name value t).1 = -(K.EINVAL : Int) ∧
    events_since t (efibc_set_variable K E name value t).2 =
      [Event.set_variable name value,
       Event.pr_err_too_large ((strlen value + 1) * sizeof_efi_char16_t) name] ∧
    store_calls (events_since t (efibc_set_variable K E name value t).2) = [] ∧
    alloc_calls (events_since t (efibc_set_variable K E name value t).2) = 0 ∧
    (K.EINVAL ≠ 0 → (efibc_set_variable K E name value t).1 ≠ 0) ∧
    (K.EINVAL ≠ K.ENOMEM → (efibc_set_variable K E name value t).1 ≠ -(K.ENOMEM : Int)) := by
  rw [set_variable_too_large K E name value t h, events_since_append]
  refine ⟨rfl, rfl, rfl, rfl, ?_, ?_⟩
  · intro h0; simpa using h0
  · intro h0; simpa using h0

theorem C2_too_large_no_store_witness :
    (efibc_set_variable linux env_ok LoaderEntryOneShot (List.replicate 512 65) []).1
        = -(linux.EINVAL : Int) ∧
    events_since [] (efibc_set_variable linux env_ok LoaderEntryOneShot
        (List.replicate 512 65) []).2 =
      [Event.set_variable LoaderEntryOneShot (List.replicate 512 65),
       Event.pr_err_too_large ((strlen (List.replicate 512 65) + 1) * sizeof_efi_char16_t)
         LoaderEntryOneShot] ∧
    store_calls (events_since [] (efibc_set_variable linux env_ok LoaderEntryOneShot
        (List.replicate 512 65) []).2) = [] ∧
    alloc_calls (events_since [] (efibc_set_variable linux env_ok LoaderEntryOneShot
        (List.replicate 512 65) []).2) = 0 ∧
    (linux.EINVAL ≠ 0 → (efibc_set_variable linux env_ok LoaderEntryOneShot
        (List.replicate 512 65) []).1 ≠ 0) ∧
    (linux.EINVAL ≠ linux.ENOMEM → (efibc_set_variable linux env_ok LoaderEntryOneShot
        (List.replicate 512 65) []).1 ≠ -(linux.ENOMEM : Int)) :=
  C2_too_large_no_store linux env_ok LoaderEntryOneShot (List.replicate 512 65) []
    (by rw [strlen_eq_length _ (by intro b hb; rw [List.eq_of_mem_replicate hb]; decide),
          List.length_replicate]
        decide)

/-- C3, as stated, fails: `efibc_str_to_str16` makes no capacity check.  Given
the one-character string "A" and a destination of one cell it overwrites that
cell and stores the NUL at index 1, beyond the capacity. -/
theorem C3_encoder_has_no_check :
    (Str16Buf.mk [7] []).cells.length ≤ strlen (lit "A") ∧
    (efibc_str_to_str16 linux (lit "A") (Str16Buf.mk [7] [])).cells ≠ (Str16Buf.mk [7] []).cells ∧
    efibc_str_to_str16 linux (lit "A") (Str16Buf.mk [7] []) = Str16Buf.mk [65] [0, 1] := by
  decide

/-- C3, amended: the capacity check is made by `efibc_set_variable`, on the
value, before any memory is obtained.  For a value with `len(value) >= N`, where
`N = sizeof(Data) / sizeof(efi_char16_t)` is the capacity of the payload in wide
units, it returns `-EINVAL` and the encoder is never run: no entry is allocated
and no request carrying a buffer is made, so no buffer is partially written. -/
theorem C3_value_checked_before_encoding (K : Headers) (E : Env) (name value : CStr)
    (t : List Event) (h : K.sizeof_Data / sizeof_efi_char16_t ≤ strlen value) :
    (efibc_set_variable K E name value t).1 = -(K.EINVAL : Int) ∧
    (∀ e ∈ events_since t (efibc_set_variable K E name value t).2,
      (∀ ok, e ≠ Event.kmalloc ok) ∧ (∀ req ret, e ≠ Event.efivar_entry_set_safe req ret)) := by
  have h2 : (strlen value + 1) * sizeof_efi_char16_t > K.sizeof_Data := by
    simp only [sizeof_efi_char16_t] at h ⊢
    omega
  rw [set_variable_too_large K E name value t h2, events_since_append]
  refine ⟨rfl, ?_⟩
  intro e he
  simp only [List.mem_cons, List.mem_singleton, List.not_mem_nil, or_false] at he
  rcases he with rfl | rfl <;> exact ⟨fun _ => by simp, fun _ _ => by simp⟩

theorem C3_value_checked_before_encoding_witness :
    (efibc_set_variable linux env_ok LoaderEntryOneShot (List.replicate 512 66) []).1
      = -(linux.EINVAL : Int) ∧
    (∀ e ∈ events_since [] (efibc_set_variable linux env_ok LoaderEntryOneShot
        (List.replicate 512 66) []).2,
      (∀ ok, e ≠ Event.kmalloc ok) ∧ (∀ req ret, e ≠ Event.efivar_entry_set_safe req ret)) :=
  C3_value_checked_before_encoding linux env_ok LoaderEntryOneShot (List.replicate 512 66) []
    (by rw [strlen_eq_length _ (by intro b hb; rw [List.eq_of_mem_replicate hb]; decide),
          List.length_replicate]
        decide)

/-- C4: in every call of `efibc_set_variable(name, value)` that reaches the
store, the encoder of the value stored only inside the payload: the request's
data buffer has `sizeof(Data) / sizeof(efi_char16_t)` cells, the indices stored
to are exactly 0..len(value), and the highest of them, `len(value)`, is below
the capacity. -/
theorem C4_value_encoded_in_bounds (K : Headers) (E : Env) (name value : CStr) (t : List Event)
    (req : SetRequest)
    (h : req ∈ store_calls (events_since t (efibc_set_variable K E name value t).2)) :
    req.data.cells.length = K.sizeof_Data / sizeof_efi_char16_t ∧
    req.data.writes = List.range (strlen value + 1) ∧
    strlen value < K.sizeof_Data / sizeof_efi_char16_t ∧
    (∀ j ∈ req.data.writes, j ≤ strlen value ∧ j < req.data.cells.length) := by
  rw [set_variable_store_calls] at h
  by_cases hs : (strlen value + 1) * sizeof_efi_char16_t > K.sizeof_Data
  · simp [hs] at h
  · cases hk : E.kmalloc (t ++ [Event.set_variable name value]) with
    | none => simp [hs, hk] at h
    | some raw =>
      simp only [hs, hk, if_false, List.mem_singleton] at h
      subst h
      have hcap : strlen value < K.sizeof_Data / sizeof_efi_char16_t := by
        simp only [sizeof_efi_char16_t] at hs ⊢
        omega
      have hw : (request_of K name value raw).data.writes = List.range (strlen value + 1) := by
        simp [request_of, str16_writes, fresh_entry, fresh_buf]
      have hl : (request_of K name value raw).data.cells.length
          = K.sizeof_Data / sizeof_efi_char16_t := by
        simp [request_of, str16_length, fresh_entry, fresh_buf_length]
      refine ⟨hl, hw, hcap, ?_⟩
      intro j hj
      rw [hw, List.mem_range] at hj
      rw [hl]
      omega

theorem C4_value_encoded_in_bounds_witness :
    (request_of linux LoaderEntryRebootReason REBOOT_REASON_NORMAL
        (List.replicate 512 43690, [], List.replicate 512 43690)).data.cells.length
      = linux.sizeof_Data / sizeof_efi_char16_t ∧
    (request_of linux LoaderEntryRebootReason REBOOT_REASON_NORMAL
        (List.replicate 512 43690, [], List.replicate 512 43690)).data.writes
      = List.range (strlen REBOOT_REASON_NORMAL + 1) ∧
    strlen REBOOT_REASON_NORMAL < linux.sizeof_Data / sizeof_efi_char16_t ∧
    (∀ j ∈ (request_of linux LoaderEntryRebootReason REBOOT_REASON_NORMAL
        (List.replicate 512 43690, [], List.replicate 512 43690)).data.writes,
      j ≤ strlen REBOOT_REASON_NORMAL ∧
      j < (request_of linux LoaderEntryRebootReason REBOOT_REASON_NORMAL
        (List.replicate 512 43690, [], List.replicate 512 43690)).data.cells.length) :=
  C4_value_encoded_in_bounds linux env_ok LoaderEntryRebootReason REBOOT_REASON_NORMAL []
    (request_of linux LoaderEntryRebootReason REBOOT_REASON_NORMAL
      (List.replicate 512 43690, [], List.replicate 512 43690))
    (by
      rw [set_variable_store_calls]
      have hs : ¬ (strlen REBOOT_REASON_NORMAL + 1) * sizeof_efi_char16_t > linux.sizeof_Data := by
        decide
      simp only [hs, if_false, env_ok, List.mem_singleton])

/-- C5: the reason `efibc_panic_notifier_call` chooses is "watchdog" exactly when
the context is present and starts, byte for byte, with "Watchdog", "softlockup"
or "Software Watchdog"; in every other case it is "kernel_panic".  In particular
an absent context and "general protection fault" give "kernel_panic", while
"Watchdog: ..." and "Software Watchdog timed out" give "watchdog". -/
theorem C5_panic_reason (data : Option CStr) :
    (((∃ s, data = some s ∧
          (lit "Watchdog" <+: s ∨ lit "softlockup" <+: s ∨ lit "Software Watchdog" <+: s)) ∧
        panic_reason data = lit "watchdog") ∨
      ((¬ ∃ s, data = some s ∧
          (lit "Watchdog" <+: s ∨ lit "softlockup" <+: s ∨ lit "Software Watchdog" <+: s)) ∧
        panic_reason data = lit "kernel_panic")) ∧
    lit "watchdog" ≠ lit "kernel_panic" ∧
    panic_reason none = lit "kernel_panic" ∧
    panic_reason (some (lit "")) = lit "kernel_panic" ∧
    panic_reason (some (lit "Watchdog: ...")) = lit "watchdog" ∧
    panic_reason (some (lit "Software Watchdog timed out")) = lit "watchdog" ∧
    panic_reason (some (lit "general protection fault")) = lit "kernel_panic" := by
  refine ⟨?_, by decide, by decide, by decide, by decide, by decide, by decide⟩
  cases data with
  | none => right; exact ⟨by simp, rfl⟩
  | some s =>
    have hH := strncmp_eq_zero_iff WATCHDOG_KERNEL_H (by decide) s
    have hS := strncmp_eq_zero_iff WATCHDOG_KERNEL_S (by decide) s
    have hD := strncmp_eq_zero_iff WATCHDOG_KERNEL_D (by decide) s
    simp only [Option.some.injEq, exists_eq_left', panic_reason, watchdog_loop_table, hH, hS, hD]
    by_cases h1 : WATCHDOG_KERNEL_H <+: s
    · left; exact ⟨Or.inl h1, by simp [h1, REBOOT_REASON_WATCHDOG]⟩
    · by_cases h2 : WATCHDOG_KERNEL_S <+: s
      · left; exact ⟨Or.inr (Or.inl h2), by simp [h1, h2, REBOOT_REASON_WATCHDOG]⟩
      · by_cases h3 : WATCHDOG_KERNEL_D <+: s
        · left; exact ⟨Or.inr (Or.inr h3), by simp [h1, h2, h3, REBOOT_REASON_WATCHDOG]⟩
        · right
          refine ⟨?_, by simp [h1, h2, h3, REBOOT_REASON_CRASH]⟩
          rintro (h | h | h)
          · exact h1 h
          · exact h2 h
          · exact h3 h

/-- C6: for every event code the first variable `efibc_reboot_notifier_call`
writes is LoaderEntryRebootReason, with the value "reboot" when the event is
`SYS_RESTART` and "shutdown" for every other event, whatever the one-shot
argument is. -/
theorem C6_reboot_reason (K : Headers) (E : Env) (event : Nat) (data : Option CStr)
    (t : List Event) :
    reboot_reason K event = (if event = K.SYS_RESTART then lit "reboot" else lit "shutdown") ∧
    (set_variable_calls (events_since t (efibc_reboot_notifier_call K E event data t).2)).head?
      = some (LoaderEntryRebootReason,
          if event = K.SYS_RESTART then lit "reboot" else lit "shutdown") := by
  refine ⟨rfl, ?_⟩
  by_cases h : (efibc_set_variable K E LoaderEntryRebootReason (reboot_reason K event) t).1 ≠ 0
      ∨ data = none
  · rw [reboot_trace_one K E event data t h, set_variable_calls_since]
    rfl
  · obtain ⟨h1, h2⟩ := not_or.mp h
    obtain ⟨s, rfl⟩ := Option.ne_none_iff_exists'.mp h2
    rw [reboot_trace_two K E event s t (not_not.mp h1)]
    obtain ⟨u, hu⟩ := set_variable_extends K E LoaderEntryRebootReason (reboot_reason K event) t
    obtain ⟨v, hv⟩ := set_variable_extends K E LoaderEntryOneShot s
      (efibc_set_variable K E LoaderEntryRebootReason (reboot_reason K event) t).2
    have hc := set_variable_calls_since K E LoaderEntryRebootReason (reboot_reason K event) t
    rw [hu, events_since_append] at hc
    rw [hv, hu, List.append_assoc, events_since_append, set_variable_calls_append, hc]
    rfl

/-- C7: when the one-shot string is present and the write of the reboot reason
returns 0, `efibc_reboot_notifier_call` calls `efibc_set_variable` exactly
twice: first for LoaderEntryRebootReason with the classified reason, then for
LoaderEntryOneShot with the caller's string unchanged, and at most two requests
reach the store.  For a restart the reason is "reboot". -/
theorem C7_reboot_two_writes (K : Headers) (E : Env) (event : Nat) (s : CStr) (t : List Event)
    (h : (efibc_set_variable K E LoaderEntryRebootReason (reboot_reason K event) t).1 = 0) :
    set_variable_calls (events_since t (efibc_reboot_notifier_call K E event (some s) t).2)
      = [(LoaderEntryRebootReason, reboot_reason K event), (LoaderEntryOneShot, s)] ∧
    (store_calls (events_since t
        (efibc_reboot_notifier_call K E event (some s) t).2)).length ≤ 2 ∧
    (event = K.SYS_RESTART →
      set_variable_calls (events_since t (efibc_reboot_notifier_call K E event (some s) t).2)
        = [(lit "LoaderEntryRebootReason", lit "reboot"), (lit "LoaderEntryOneShot", s)]) := by
  have main : set_variable_calls
      (events_since t (efibc_reboot_notifier_call K E event (some s) t).2)
      = [(LoaderEntryRebootReason, reboot_reason K event), (LoaderEntryOneShot, s)] := by
    rw [reboot_trace_two K E event s t h]
    obtain ⟨u, hu⟩ := set_variable_extends K E LoaderEntryRebootReason (reboot_reason K event) t
    have hc := set_variable_calls_since K E LoaderEntryRebootReason (reboot_reason K event) t
    have hc2 := set_variable_calls_since K E LoaderEntryOneShot s
      (efibc_set_variable K E LoaderEntryRebootReason (reboot_reason K event) t).2
    obtain ⟨v, hv⟩ := set_variable_extends K E LoaderEntryOneShot s
      (efibc_set_variable K E LoaderEntryRebootReason (reboot_reason K event) t).2
    rw [hv, events_since_append] at hc2
    rw [hu, events_since_append] at hc
    rw [hv, hu, List.append_assoc, events_since_append, set_variable_calls_append, hc, hc2]
    rfl
  refine ⟨main, ?_, ?_⟩
  · rw [reboot_trace_two K E event s t h]
    obtain ⟨u, hu⟩ := set_variable_extends K E LoaderEntryRebootReason (reboot_reason K event) t
    have h1 := store_calls_since_le_one K E LoaderEntryRebootReason (reboot_reason K event) t
    have h2 := store_calls_since_le_one K E LoaderEntryOneShot s
      (efibc_set_variable K E LoaderEntryRebootReason (reboot_reason K event) t).2
    obtain ⟨v, hv⟩ := set_variable_extends K E LoaderEntryOneShot s
      (efibc_set_variable K E LoaderEntryRebootReason (reboot_reason K event) t).2
    rw [hv, events_since_append] at h2
    rw [hu, events_since_append] at h1
    rw [hv, hu, List.append_assoc, events_since_append, store_calls_append, List.length_append]
    omega
  · intro he
    rw [main]
    simp [reboot_reason, he, REBOOT_REASON_NORMAL, LoaderEntryRebootReason, LoaderEntryOneShot]

theorem C7_reboot_two_writes_witness :
    set_variable_calls (events_since []
        (efibc_reboot_notifier_call linux env_ok 1 (some (lit "entry-X")) []).2)
      = [(LoaderEntryRebootReason, reboot_reason linux 1),
         (LoaderEntryOneShot, lit "entry-X")] ∧
    (store_calls (events_since []
        (efibc_reboot_notifier_call linux env_ok 1 (some (lit "entry-X")) []).2)).length ≤ 2 ∧
    (1 = linux.SYS_RESTART →
      set_variable_calls (events_since []
          (efibc_reboot_notifier_call linux env_ok 1 (some (lit "entry-X")) []).2)
        = [(lit "LoaderEntryRebootReason", lit "reboot"),
           (lit "LoaderEntryOneShot", lit "entry-X")]) :=
  C7_reboot_two_writes linux env_ok 1 (lit "entry-X") []
    (by
      rw [set_variable_store linux env_ok _ _ []
        (List.replicate 512 43690, [], List.replicate 512 43690) (by decide) rfl]
      rfl)

/-- C8: when the one-shot argument is absent, or the write of the reboot reason
returns a non-zero code, `efibc_reboot_notifier_call` calls `efibc_set_variable`
exactly once, for LoaderEntryRebootReason, never for LoaderEntryOneShot, and at
most one request reaches the store.  For an event other than a restart the
value written is "shutdown". -/
theorem C8_reboot_one_write (K : Headers) (E : Env) (event : Nat) (data : Option CStr)
    (t : List Event)
    (h : data = none ∨
      (efibc_set_variable K E LoaderEntryRebootReason (reboot_reason K event) t).1 ≠ 0) :
    set_variable_calls (events_since t (efibc_reboot_notifier_call K E event data t).2)
      = [(LoaderEntryRebootReason, reboot_reason K event)] ∧
    (∀ c ∈ set_variable_calls
        (events_since t (efibc_reboot_notifier_call K E event data t).2),
      c.1 ≠ LoaderEntryOneShot) ∧
    (store_calls (events_since t (efibc_reboot_notifier_call K E event data t).2)).length ≤ 1 ∧
    (event ≠ K.SYS_RESTART →
      set_variable_calls (events_since t (efibc_reboot_notifier_call K E event data t).2)
        = [(lit "LoaderEntryRebootReason", lit "shutdown")]) := by
  rw [reboot_trace_one K E event data t h.symm, set_variable_calls_since]
  refine ⟨rfl, ?_, store_calls_since_le_one _ _ _ _ _, ?_⟩
  · intro c hc
    rw [List.mem_singleton] at hc
    subst hc
    exact names_differ
  · intro he
    simp [reboot_reason, he, REBOOT_REASON_SHUTDOWN, LoaderEntryRebootReason]

theorem C8_reboot_one_write_witness :
    set_variable_calls (events_since [] (efibc_reboot_notifier_call linux env_ok 3 none []).2)
      = [(LoaderEntryRebootReason, reboot_reason linux 3)] ∧
    (∀ c ∈ set_variable_calls
        (events_since [] (efibc_reboot_notifier_call linux env_ok 3 none []).2),
      c.1 ≠ LoaderEntryOneShot) ∧
    (store_calls (events_since []
        (efibc_reboot_notifier_call linux env_ok 3 none []).2)).length ≤ 1 ∧
    (3 ≠ linux.SYS_RESTART →
      set_variable_calls (events_since [] (efibc_reboot_notifier_call linux env_ok 3 none []).2)
        = [(lit "LoaderEntryRebootReason", lit "shutdown")]) :=
  C8_reboot_one_write linux env_ok 3 none [] (Or.inl rfl)

/-- C9: for every context, present or absent, `efibc_panic_notifier_call` calls
`efibc_set_variable` exactly once, for LoaderEntryRebootReason with the reason
classified from the context, never for LoaderEntryOneShot, and at most one
request reaches the store.  For the context "softlockup detected" the single
write is LoaderEntryRebootReason = "watchdog". -/
theorem C9_panic_one_write (K : Headers) (E : Env) (what : Nat) (data : Option CStr)
    (t : List Event) :
    set_variable_calls (events_since t (efibc_panic_notifier_call K E what data t).2)
      = [(LoaderEntryRebootReason, panic_reason data)] ∧
    (∀ c ∈ set_variable_calls (events_since t (efibc_panic_notifier_call K E what data t).2),
      c.1 ≠ LoaderEntryOneShot) ∧
    (store_calls (events_since t (efibc_panic_notifier_call K E what data t).2)).length ≤ 1 ∧
    set_variable_calls (events_since t
        (efibc_panic_notifier_call K E what (some (lit "softlockup detected")) t).2)
      = [(lit "LoaderEntryRebootReason", lit "watchdog")] := by
  have hc : ∀ d : Option CStr,
      set_variable_calls (events_since t (efibc_panic_notifier_call K E what d t).2)
        = [(LoaderEntryRebootReason, panic_reason d)] :=
    fun d => set_variable_calls_since K E LoaderEntryRebootReason (panic_reason d) t
  refine ⟨hc data, ?_, store_calls_since_le_one K E LoaderEntryRebootReason (panic_reason data) t,
    ?_⟩
  · intro c hm
    rw [hc data, List.mem_singleton] at hm
    subst hm
    exact names_differ
  · rw [hc]
    decide

/-- C10: whatever the event, the argument, the allocator and the store do,
`efibc_reboot_notifier_call` and `efibc_panic_notifier_call` return
`NOTIFY_DONE`; no error code of `efibc_set_variable` reaches their caller. -/
theorem C10_notifiers_return_done (K : Headers) (E : Env) (event : Nat) (data : Option CStr)
    (t : List Event) :
    (efibc_reboot_notifier_call K E event data t).1 = K.NOTIFY_DONE ∧
    (efibc_panic_notifier_call K E event data t).1 = K.NOTIFY_DONE := by
  refine ⟨?_, rfl⟩
  simp only [efibc_reboot_notifier_call]
  split <;> rfl

/-- C11: in every call of `efibc_set_variable(name, value)` that reaches the
store, the function returns exactly the code the store call returned (0 on
success, the store's own error code otherwise), and that call is the only store
call of the run: it is not repeated after a failure. -/
theorem C11_store_code_returned (K : Headers) (E : Env) (name value : CStr) (t : List Event)
    (req : SetRequest) (ret : Int)
    (h : Event.efivar_entry_set_safe req ret
      ∈ events_since t (efibc_set_variable K E name value t).2) :
    (efibc_set_variable K E name value t).1 = ret ∧
    ret = E.efivar_entry_set_safe
      (t ++ [Event.set_variable name value, Event.kmalloc true]) req ∧
    store_calls (events_since t (efibc_set_variable K E name value t).2) = [req] := by
  by_cases hs : (strlen value + 1) * sizeof_efi_char16_t > K.sizeof_Data
  · rw [set_variable_too_large K E name value t hs, events_since_append] at h
    simp at h
  · cases hk : E.kmalloc (t ++ [Event.set_variable name value]) with
    | none =>
      rw [set_variable_nomem K E name value t hs hk, events_since_append] at h
      simp at h
    | some raw =>
      have hsc := set_variable_store_calls K E name value t
      simp only [hs, hk, if_false] at hsc
      rw [set_variable_store K E name value t raw hs hk, events_since_append] at h
      have hm : req = request_of K name value raw ∧
          ret = E.efivar_entry_set_safe
            (t ++ [Event.set_variable name value, Event.kmalloc true])
            (request_of K name value raw) := by
        split at h <;> simpa using h
      obtain ⟨h1, h2⟩ := hm
      subst h1
      rw [hsc, set_variable_store K E name value t raw hs hk]
      exact ⟨h2.symm, h2, rfl⟩

theorem C11_store_code_returned_witness :
    (efibc_set_variable linux env_store_fails LoaderEntryRebootReason REBOOT_REASON_NORMAL []).1
      = -5 ∧
    (-5 : Int) = env_store_fails.efivar_entry_set_safe
      ([] ++ [Event.set_variable LoaderEntryRebootReason REBOOT_REASON_NORMAL,
        Event.kmalloc true])
      (request_of linux LoaderEntryRebootReason REBOOT_REASON_NORMAL ([], [], [])) ∧
    store_calls (events_since []
      (efibc_set_variable linux env_store_fails LoaderEntryRebootReason
        REBOOT_REASON_NORMAL []).2)
      = [request_of linux LoaderEntryRebootReason REBOOT_REASON_NORMAL ([], [], [])] :=
  C11_store_code_returned linux env_store_fails LoaderEntryRebootReason REBOOT_REASON_NORMAL []
    (request_of linux LoaderEntryRebootReason REBOOT_REASON_NORMAL ([], [], [])) (-5)
    (by
      rw [set_variable_store linux env_store_fails _ _ [] ([], [], []) (by decide) rfl,
        events_since_append]
      simp [env_store_fails])

/-- C12, as stated, fails in two ways, shown with the Linux header values.
First, the name is encoded without a bounds check: for a name of 512 letters "A"
the request that reaches the store has a name buffer of 512 cells, the encoder
having stored at index 512 beyond the array, and its first `len(name)+1` cells
are not the wide encoding of the name.  Second, a byte from 128 up is
sign-extended where `char` is signed: for the value with bytes 0xE9, "A" the
payload of the request is 0xFFE9, 0x41, 0, while the wide encoding of the value
(each byte zero-extended) is 0xE9, 0x41, 0. -/
theorem C12_not_every_name_and_value :
    (∃ req, store_calls (events_since []
        (efibc_set_variable linux env_ok (List.replicate 512 65) REBOOT_REASON_NORMAL []).2)
        = [req] ∧
      req.name.cells.length = 512 ∧
      512 ∈ req.name.writes ∧
      req.name.cells.take (strlen (List.replicate 512 65) + 1)
        ≠ wide_encoding (List.replicate 512 65)) ∧
    (∃ req, store_calls (events_since []
        (efibc_set_variable linux env_ok LoaderEntryOneShot [233, 65] []).2) = [req] ∧
      req.size = (strlen [233, 65] + 1) * sizeof_efi_char16_t ∧
      req.data.cells.take (req.size / sizeof_efi_char16_t) = [65513, 65, 0] ∧
      wide_encoding [233, 65] = [233, 65, 0] ∧
      req.data.cells.take (req.size / sizeof_efi_char16_t) ≠ wide_encoding [233, 65]) := by
  constructor
  · refine ⟨request_of linux (List.replicate 512 65) REBOOT_REASON_NORMAL
      (List.replicate 512 43690, [], List.replicate 512 43690), ?_, ?_, ?_, ?_⟩
    · rw [set_variable_store_calls]
      have hs : ¬ (strlen REBOOT_REASON_NORMAL + 1) * sizeof_efi_char16_t
          > linux.sizeof_Data := by
        decide
      simp only [hs, if_false, env_ok]
    · simp only [request_of, str16_length, fresh_entry, fresh_buf_length]
      decide
    · simp only [request_of, str16_writes, fresh_entry, fresh_buf, List.nil_append,
        strlen_replicate 512 65 (by decide), List.mem_range]
      decide
    · intro h
      have hl := congrArg List.length h
      simp only [request_of, List.length_take, str16_length, fresh_entry, fresh_buf_length,
        wide_encoding, List.length_append, content_length,
        strlen_replicate 512 65 (by decide), List.length_singleton] at hl
      revert hl
      decide
  · have hs : ¬ (strlen [233, 65] + 1) * sizeof_efi_char16_t > linux.sizeof_Data := by decide
    have hd := request_data_encoding linux LoaderEntryOneShot [233, 65]
      (List.replicate 512 43690, [], List.replicate 512 43690) hs
    have hu : stored_units linux [233, 65] = [65513, 65, 0] := by decide
    refine ⟨request_of linux LoaderEntryOneShot [233, 65]
      (List.replicate 512 43690, [], List.replicate 512 43690), ?_, rfl, ?_, by decide, ?_⟩
    · rw [set_variable_store_calls]
      simp only [hs, if_false, env_ok]
    · rw [hd, hu]
    · rw [hd, hu]
      decide

/-- C12, amended: for every ASCII name (bytes up to 127) whose encoding fits
`VariableName` (`len(name) < sizeof(VariableName) / sizeof(efi_char16_t)`, as
holds for the two names the handlers use) and every ASCII value that fits the
payload ceiling, when the allocation succeeds `efibc_set_variable` makes exactly
one store call, a single set-variable request, between the `kmalloc` and the
`kfree`.  The request's name is the wide encoding of `name`, its namespace is
`LINUX_EFI_LOADER_ENTRY_GUID`, its attributes are
`NON_VOLATILE | BOOTSERVICE_ACCESS | RUNTIME_ACCESS`, its size is
`(len(value)+1) * sizeof(efi_char16_t)` bytes, and the first `size` bytes of its
data are the wide encoding of `value` with its terminating wide NUL. -/
theorem C12_single_store_request (K : Headers) (E : Env) (name value : CStr) (t : List Event)
    (raw : List Nat × List Nat × List Nat)
    (hfit : (strlen value + 1) * sizeof_efi_char16_t ≤ K.sizeof_Data)
    (hk : E.kmalloc (t ++ [Event.set_variable name value]) = some raw)
    (hname : strlen name < K.sizeof_VariableName / sizeof_efi_char16_t)
    (hascii_name : ∀ b ∈ name, b ≤ 127) (hascii_value : ∀ b ∈ value, b ≤ 127) :
    ∃ req,
      store_calls (events_since t (efibc_set_variable K E name value t).2) = [req] ∧
      events_since t (efibc_set_variable K E name value t).2 =
        [Event.set_variable name value, Event.kmalloc true,
          Event.efivar_entry_set_safe req (efibc_set_variable K E name value t).1] ++
        (if (efibc_set_variable K E name value t).1 ≠ 0
          then [Event.pr_err_set name (efibc_set_variable K E name value t).1] else []) ++
        [Event.kfree] ∧
      req.name.cells.take (strlen name + 1) = wide_encoding name ∧
      req.vendor = K.LINUX_EFI_LOADER_ENTRY_GUID ∧
      req.attributes = K.EFI_VARIABLE_NON_VOLATILE ||| K.EFI_VARIABLE_BOOTSERVICE_ACCESS
        ||| K.EFI_VARIABLE_RUNTIME_ACCESS ∧
      req.block = false ∧
      req.size = (strlen value + 1) * sizeof_efi_char16_t ∧
      req.data.cells.take (req.size / sizeof_efi_char16_t) = wide_encoding value := by
  have hs : ¬ (strlen value + 1) * sizeof_efi_char16_t > K.sizeof_Data := by omega
  refine ⟨request_of K name value raw, ?_, set_variable_store_events K E name value t raw hs hk,
    ?_, rfl, rfl, rfl, rfl, ?_⟩
  · rw [set_variable_store_calls]
    simp only [hs, hk, if_false]
  · rw [← stored_units_eq_wide_encoding K name hascii_name]
    exact str16_take K name _ (by rw [fresh_entry, fresh_buf_length]; exact hname)
  · rw [← stored_units_eq_wide_encoding K value hascii_value]
    exact request_data_encoding K name value raw hs

theorem C12_single_store_request_witness :
    ∃ req,
      store_calls (events_since []
        (efibc_set_variable linux env_ok LoaderEntryRebootReason REBOOT_REASON_NORMAL []).2)
        = [req] ∧
      events_since []
        (efibc_set_variable linux env_ok LoaderEntryRebootReason REBOOT_REASON_NORMAL []).2 =
        [Event.set_variable LoaderEntryRebootReason REBOOT_REASON_NORMAL, Event.kmalloc true,
          Event.efivar_entry_set_safe req
            (efibc_set_variable linux env_ok LoaderEntryRebootReason
              REBOOT_REASON_NORMAL []).1] ++
        (if (efibc_set_variable linux env_ok LoaderEntryRebootReason
              REBOOT_REASON_NORMAL []).1 ≠ 0
          then [Event.pr_err_set LoaderEntryRebootReason
            (efibc_set_variable linux env_ok LoaderEntryRebootReason
              REBOOT_REASON_NORMAL []).1] else []) ++
        [Event.kfree] ∧
      req.name.cells.take (strlen LoaderEntryRebootReason + 1)
        = wide_encoding LoaderEntryRebootReason ∧
      req.vendor = linux.LINUX_EFI_LOADER_ENTRY_GUID ∧
      req.attributes = linux.EFI_VARIABLE_NON_VOLATILE
        ||| linux.EFI_VARIABLE_BOOTSERVICE_ACCESS ||| linux.EFI_VARIABLE_RUNTIME_ACCESS ∧
      req.block = false ∧
      req.size = (strlen REBOOT_REASON_NORMAL + 1) * sizeof_efi_char16_t ∧
      req.data.cells.take (req.size / sizeof_efi_char16_t)
        = wide_encoding REBOOT_REASON_NORMAL :=
  C12_single_store_request linux env_ok LoaderEntryRebootReason REBOOT_REASON_NORMAL []
    (List.replicate 512 43690, [], List.replicate 512 43690)
    (by decide) rfl (by decide) (by decide) (by decide)

/-- C13: the wire contract of LoaderEntryRebootReason.  Every call the reboot
handler makes for that variable carries "reboot" or "shutdown", the only call
of the panic handler is for that variable and carries "kernel_panic" or
"watchdog", and every request for that variable that reaches the store has as
payload (the first `size` bytes of its data) the NUL-terminated wide encoding
of one of these strings. -/
theorem C13_reboot_reason_wire_contract (K : Headers) (E : Env) (event : Nat)
    (data : Option CStr) (t : List Event) :
    (∀ c ∈ set_variable_calls (events_since t (efibc_reboot_notifier_call K E event data t).2),
      c.1 = LoaderEntryRebootReason → c.2 = lit "reboot" ∨ c.2 = lit "shutdown") ∧
    (∀ c ∈ set_variable_calls (events_since t (efibc_panic_notifier_call K E event data t).2),
      c.1 = LoaderEntryRebootReason ∧ (c.2 = lit "kernel_panic" ∨ c.2 = lit "watchdog")) ∧
    (∀ req ∈ store_calls (events_since t (efibc_reboot_notifier_call K E event data t).2),
      req.name.cells.take (strlen LoaderEntryRebootReason + 1)
          = wide_encoding LoaderEntryRebootReason →
        req.data.cells.take (req.size / sizeof_efi_char16_t) = lit "reboot" ++ [0] ∨
        req.data.cells.take (req.size / sizeof_efi_char16_t) = lit "shutdown" ++ [0]) ∧
    (∀ req ∈ store_calls (events_since t (efibc_panic_notifier_call K E event data t).2),
      req.data.cells.take (req.size / sizeof_efi_char16_t) = lit "kernel_panic" ++ [0] ∨
      req.data.cells.take (req.size / sizeof_efi_char16_t) = lit "watchdog" ++ [0]) := by
  have first : ∀ req ∈ store_calls (events_since t
        (efibc_set_variable K E LoaderEntryRebootReason (reboot_reason K event) t).2),
      req.data.cells.take (req.size / sizeof_efi_char16_t) = lit "reboot" ++ [0] ∨
      req.data.cells.take (req.size / sizeof_efi_char16_t) = lit "shutdown" ++ [0] := by
    intro req hreq
    obtain ⟨hs, raw, _, rfl⟩ := set_variable_store_mem K E _ _ t req hreq
    rw [request_data_encoding K _ _ raw hs]
    rcases reboot_reason_cases K event with h | h
    · left; rw [h]; exact stored_units_ascii K _ (by decide)
    · right; rw [h]; exact stored_units_ascii K _ (by decide)
  refine ⟨?_, ?_, ?_, ?_⟩
  · intro c hc hname
    rcases reboot_trace_cases K E event data t with h | ⟨s, _, _, h⟩
    · rw [h, set_variable_calls_since, List.mem_singleton] at hc
      subst hc
      exact reboot_reason_cases K event
    · rw [h, set_variable_calls_append, set_variable_calls_since, set_variable_calls_since] at hc
      simp only [List.singleton_append, List.mem_cons, List.mem_singleton, List.not_mem_nil,
        or_false] at hc
      rcases hc with rfl | rfl
      · exact reboot_reason_cases K event
      · exact absurd hname.symm names_differ
  · intro c hc
    have e : set_variable_calls (events_since t (efibc_panic_notifier_call K E event data t).2)
        = [(LoaderEntryRebootReason, panic_reason data)] :=
      set_variable_calls_since K E LoaderEntryRebootReason (panic_reason data) t
    rw [e, List.mem_singleton] at hc
    subst hc
    exact ⟨rfl, panic_reason_cases data⟩
  · intro req hreq hname
    have h24 : strlen LoaderEntryRebootReason + 1 = 24 := by decide
    rw [h24] at hname
    rcases reboot_trace_cases K E event data t with h | ⟨s, _, _, h⟩
    · rw [h] at hreq
      exact first req hreq
    · rw [h, store_calls_append, List.mem_append] at hreq
      rcases hreq with h1 | h2
      · exact first req h1
      · obtain ⟨_, raw, _, rfl⟩ := set_variable_store_mem K E _ _ _ req h2
        exact absurd hname (oneshot_name_differs K s raw)
  · intro req hreq
    have hreq2 : req ∈ store_calls (events_since t
        (efibc_set_variable K E LoaderEntryRebootReason (panic_reason data) t).2) := hreq
    obtain ⟨hs, raw, _, rfl⟩ := set_variable_store_mem K E _ _ t req hreq2
    rw [request_data_encoding K _ _ raw hs]
    rcases panic_reason_cases data with h | h
    · left; rw [h]; exact stored_units_ascii K _ (by decide)
    · right; rw [h]; exact stored_units_ascii K _ (by decide)

/-- C14: the size check of `efibc_set_variable` is exact at the boundary.  With
`N = sizeof(Data) / sizeof(efi_char16_t)`, the value is rejected as too large
(the `pr_err` of line 49 is reached) if and only if `len(value) + 1 > N`, which
is what the comparison of line 48 in bytes amounts to.  A value with
`len(value) + 1 = N` reaches the store when allocation succeeds; a value with
`len(value) = N` is rejected with `-EINVAL`, without allocation or store call. -/
theorem C14_size_check_boundary (K : Headers) (E : Env) (name value : CStr) (t : List Event) :
    ((∃ size, Event.pr_err_too_large size name
        ∈ events_since t (efibc_set_variable K E name value t).2) ↔
      strlen value + 1 > K.sizeof_Data / sizeof_efi_char16_t) ∧
    ((strlen value + 1) * sizeof_efi_char16_t > K.sizeof_Data ↔
      strlen value + 1 > K.sizeof_Data / sizeof_efi_char16_t) ∧
    (strlen value + 1 = K.sizeof_Data / sizeof_efi_char16_t →
      ∀ raw, E.kmalloc (t ++ [Event.set_variable name value]) = some raw →
        store_calls (events_since t (efibc_set_variable K E name value t).2)
          = [request_of K name value raw]) ∧
    (strlen value = K.sizeof_Data / sizeof_efi_char16_t →
      (efibc_set_variable K E name value t).1 = -(K.EINVAL : Int) ∧
      store_calls (events_since t (efibc_set_variable K E name value t).2) = [] ∧
      alloc_calls (events_since t (efibc_set_variable K E name value t).2) = 0) := by
  have key : (strlen value + 1) * sizeof_efi_char16_t > K.sizeof_Data ↔
      strlen value + 1 > K.sizeof_Data / sizeof_efi_char16_t := by
    simp only [sizeof_efi_char16_t]
    omega
  refine ⟨?_, key, ?_, ?_⟩
  · rw [← key]
    by_cases hs : (strlen value + 1) * sizeof_efi_char16_t > K.sizeof_Data
    · rw [set_variable_too_large K E name value t hs, events_since_append]
      simp [hs]
    · cases hk : E.kmalloc (t ++ [Event.set_variable name value]) with
      | none =>
        rw [set_variable_nomem K E name value t hs hk, events_since_append]
        simp [hs]
      | some raw =>
        rw [set_variable_store K E name value t raw hs hk, events_since_append]
        split <;> simp [hs]
  · intro hN raw hk
    have hs : ¬ (strlen value + 1) * sizeof_efi_char16_t > K.sizeof_Data := by
      rw [key]; omega
    rw [set_variable_store_calls]
    simp only [hs, hk, if_false]
  · intro hN
    have hs : (strlen value + 1) * sizeof_efi_char16_t > K.sizeof_Data := by
      rw [key]; omega
    rw [set_variable_too_large K E name value t hs, events_since_append]
    exact ⟨rfl, rfl, rfl⟩

/-- C15: the watchdog match is case-sensitive and anchored at the start.  A
context that none of the three signatures starts, byte for byte, is classified
"kernel_panic", also when a signature matches with letter case ignored
("watchdog timeout", "Softlockup", "software watchdog") and when a signature
occurs further inside the context ("NMI Watchdog detected",
"BUG: softlockup"). -/
theorem C15_case_sensitive_anchored (s : CStr) (h : ∀ w ∈ watchdogs, ¬ w <+: s) :
    panic_reason (some s) = lit "kernel_panic" ∧
    (WATCHDOG_KERNEL_H.map ascii_tolower <+: (lit "watchdog timeout").map ascii_tolower ∧
      panic_reason (some (lit "watchdog timeout")) = lit "kernel_panic") ∧
    (WATCHDOG_KERNEL_S.map ascii_tolower <+: (lit "Softlockup").map ascii_tolower ∧
      panic_reason (some (lit "Softlockup")) = lit "kernel_panic") ∧
    (WATCHDOG_KERNEL_D.map ascii_tolower <+: (lit "software watchdog").map ascii_tolower ∧
      panic_reason (some (lit "software watchdog")) = lit "kernel_panic") ∧
    (WATCHDOG_KERNEL_H <:+: lit "NMI Watchdog detected" ∧
      panic_reason (some (lit "NMI Watchdog detected")) = lit "kernel_panic") ∧
    (WATCHDOG_KERNEL_S <:+: lit "BUG: softlockup" ∧
      panic_reason (some (lit "BUG: softlockup")) = lit "kernel_panic") :=
  ⟨panic_reason_no_signature s h, by decide, by decide, by decide, by decide, by decide⟩

theorem C15_case_sensitive_anchored_witness :
    panic_reason (some (lit "NMI Watchdog detected")) = lit "kernel_panic" ∧
    (WATCHDOG_KERNEL_H.map ascii_tolower <+: (lit "watchdog timeout").map ascii_tolower ∧
      panic_reason (some (lit "watchdog timeout")) = lit "kernel_panic") ∧
    (WATCHDOG_KERNEL_S.map ascii_tolower <+: (lit "Softlockup").map ascii_tolower ∧
      panic_reason (some (lit "Softlockup")) = lit "kernel_panic") ∧
    (WATCHDOG_KERNEL_D.map ascii_tolower <+: (lit "software watchdog").map ascii_tolower ∧
      panic_reason (some (lit "software watchdog")) = lit "kernel_panic") ∧
    (WATCHDOG_KERNEL_H <:+: lit "NMI Watchdog detected" ∧
      panic_reason (some (lit "NMI Watchdog detected")) = lit "kernel_panic") ∧
    (WATCHDOG_KERNEL_S <:+: lit "BUG: softlockup" ∧
      panic_reason (some (lit "BUG: softlockup")) = lit "kernel_panic") :=
  C15_case_sensitive_anchored (lit "NMI Watchdog detected") (by decide)

/-- C16: the classification does not depend on the order of the table.  For
every context and every permutation `ws` of the three signatures, the
first-match loop over `ws` yields the reason the source's order yields, which
is "watchdog" when one of the three `strncmp` tests is zero and "kernel_panic"
otherwise. -/
theorem C16_order_independent (s : CStr) (ws : List CStr) (h : ws.Perm watchdogs) :
    watchdog_loop s ws REBOOT_REASON_CRASH = panic_reason (some s) ∧
    panic_reason (some s) =
      (if strncmp s WATCHDOG_KERNEL_H (strlen WATCHDOG_KERNEL_H) = 0 ∨
          strncmp s WATCHDOG_KERNEL_S (strlen WATCHDOG_KERNEL_S) = 0 ∨
          strncmp s WATCHDOG_KERNEL_D (strlen WATCHDOG_KERNEL_D) = 0
        then lit "watchdog" else lit "kernel_panic") := by
  constructor
  · simp only [panic_reason]
    rw [watchdog_loop_any, watchdog_loop_any, any_perm _ ws watchdogs h]
  · simp only [panic_reason, watchdog_loop_table]
    by_cases h1 : strncmp s WATCHDOG_KERNEL_H (strlen WATCHDOG_KERNEL_H) = 0
    · simp [h1, REBOOT_REASON_WATCHDOG]
    · by_cases h2 : strncmp s WATCHDOG_KERNEL_S (strlen WATCHDOG_KERNEL_S) = 0
      · simp [h1, h2, REBOOT_REASON_WATCHDOG]
      · by_cases h3 : strncmp s WATCHDOG_KERNEL_D (strlen WATCHDOG_KERNEL_D) = 0
        · simp [h1, h2, h3, REBOOT_REASON_WATCHDOG]
        · simp [h1, h2, h3, REBOOT_REASON_CRASH]

theorem C16_order_independent_witness :
    watchdog_loop (lit "softlockup detected")
        [WATCHDOG_KERNEL_D, WATCHDOG_KERNEL_H, WATCHDOG_KERNEL_S] REBOOT_REASON_CRASH
      = panic_reason (some (lit "softlockup detected")) ∧
    panic_reason (some (lit "softlockup detected")) =
      (if strncmp (lit "softlockup detected") WATCHDOG_KERNEL_H (strlen WATCHDOG_KERNEL_H) = 0 ∨
          strncmp (lit "softlockup detected") WATCHDOG_KERNEL_S (strlen WATCHDOG_KERNEL_S) = 0 ∨
          strncmp (lit "softlockup detected") WATCHDOG_KERNEL_D (strlen WATCHDOG_KERNEL_D) = 0
        then lit "watchdog" else lit "kernel_panic") :=
  C16_order_independent (lit "softlockup detected")
    [WATCHDOG_KERNEL_D, WATCHDOG_KERNEL_H, WATCHDOG_KERNEL_S] (by decide)

/-- C17: the reboot-reason write is never rejected by the size check.  When
`sizeof(Data)` is at least 26 bytes (it is 1024 in the kernel), each of the
four canonical reasons has encoded size `(len+1) * sizeof(efi_char16_t)` within
`sizeof(Data)`; neither handler ever logs "too large" for
LoaderEntryRebootReason, and the write of the reason reaches the store whenever
its allocation succeeds. -/
theorem C17_reason_never_too_large (K : Headers) (E : Env) (event : Nat) (data : Option CStr)
    (t : List Event) (h : 26 ≤ K.sizeof_Data) :
    ((strlen (lit "kernel_panic") + 1) * sizeof_efi_char16_t ≤ K.sizeof_Data ∧
      (strlen (lit "reboot") + 1) * sizeof_efi_char16_t ≤ K.sizeof_Data ∧
      (strlen (lit "shutdown") + 1) * sizeof_efi_char16_t ≤ K.sizeof_Data ∧
      (strlen (lit "watchdog") + 1) * sizeof_efi_char16_t ≤ K.sizeof_Data) ∧
    (∀ size, Event.pr_err_too_large size LoaderEntryRebootReason
      ∉ events_since t (efibc_reboot_notifier_call K E event data t).2) ∧
    (∀ size, Event.pr_err_too_large size LoaderEntryRebootReason
      ∉ events_since t (efibc_panic_notifier_call K E event data t).2) ∧
    (∀ raw, E.kmalloc (t ++ [Event.set_variable LoaderEntryRebootReason (reboot_reason K event)])
        = some raw →
      request_of K LoaderEntryRebootReason (reboot_reason K event) raw
        ∈ store_calls (events_since t (efibc_reboot_notifier_call K E event data t).2)) ∧
    (∀ raw, E.kmalloc (t ++ [Event.set_variable LoaderEntryRebootReason (panic_reason data)])
        = some raw →
      request_of K LoaderEntryRebootReason (panic_reason data) raw
        ∈ store_calls (events_since t (efibc_panic_notifier_call K E event data t).2)) := by
  obtain ⟨h1, h2, h3, h4⟩ := canonical_reason_sizes
  have hr := reboot_reason_fits K event h
  have hp := panic_reason_fits K data h
  refine ⟨?_, ?_, ?_, ?_, ?_⟩
  · change (strlen REBOOT_REASON_CRASH + 1) * sizeof_efi_char16_t ≤ K.sizeof_Data ∧
      (strlen REBOOT_REASON_NORMAL + 1) * sizeof_efi_char16_t ≤ K.sizeof_Data ∧
      (strlen REBOOT_REASON_SHUTDOWN + 1) * sizeof_efi_char16_t ≤ K.sizeof_Data ∧
      (strlen REBOOT_REASON_WATCHDOG + 1) * sizeof_efi_char16_t ≤ K.sizeof_Data
    rw [h1, h2, h3, h4]
    simp only [sizeof_efi_char16_t]
    omega
  · intro size hmem
    rcases reboot_trace_cases K E event data t with e | ⟨s, _, _, e⟩
    · rw [e] at hmem
      exact hr (too_large_event K E _ _ t size _ hmem).2
    · rw [e, List.mem_append] at hmem
      rcases hmem with hm | hm
      · exact hr (too_large_event K E _ _ t size _ hm).2
      · exact names_differ (too_large_event K E _ _ _ size _ hm).1
  · intro size hmem
    have hm2 : Event.pr_err_too_large size LoaderEntryRebootReason ∈ events_since t
        (efibc_set_variable K E LoaderEntryRebootReason (panic_reason data) t).2 := hmem
    exact hp (too_large_event K E _ _ t size _ hm2).2
  · intro raw hk
    have hsc := set_variable_store_calls K E LoaderEntryRebootReason (reboot_reason K event) t
    simp only [hr, hk, if_false] at hsc
    rcases reboot_trace_cases K E event data t with e | ⟨s, _, _, e⟩
    · rw [e, hsc]; exact List.mem_singleton_self _
    · rw [e, store_calls_append, hsc]
      exact List.mem_append_left _ (List.mem_singleton_self _)
  · intro raw hk
    have hsc := set_variable_store_calls K E LoaderEntryRebootReason (panic_reason data) t
    simp only [hp, hk, if_false] at hsc
    have e : store_calls (events_since t (efibc_panic_notifier_call K E event data t).2)
        = [request_of K LoaderEntryRebootReason (panic_reason data) raw] := hsc
    rw [e]; exact List.mem_singleton_self _

theorem C17_reason_never_too_large_witness :
    26 ≤ linux.sizeof_Data ∧
    ((strlen (lit "kernel_panic") + 1) * sizeof_efi_char16_t ≤ linux.sizeof_Data ∧
      (strlen (lit "reboot") + 1) * sizeof_efi_char16_t ≤ linux.sizeof_Data ∧
      (strlen (lit "shutdown") + 1) * sizeof_efi_char16_t ≤ linux.sizeof_Data ∧
      (strlen (lit "watchdog") + 1) * sizeof_efi_char16_t ≤ linux.sizeof_Data) ∧
    (∀ size, Event.pr_err_too_large size LoaderEntryRebootReason
      ∉ events_since [] (efibc_reboot_notifier_call linux env_ok 1
          (some (List.replicate 600 65)) []).2) ∧
    (∀ size, Event.pr_err_too_large size LoaderEntryRebootReason
      ∉ events_since [] (efibc_panic_notifier_call linux env_ok 1
          (some (List.replicate 600 65)) []).2) :=
  ⟨by decide,
    (C17_reason_never_too_large linux env_ok 1 (some (List.replicate 600 65)) []
      (by decide)).1,
    (C17_reason_never_too_large linux env_ok 1 (some (List.replicate 600 65)) []
      (by decide)).2.1,
    (C17_reason_never_too_large linux env_ok 1 (some (List.replicate 600 65)) []
      (by decide)).2.2.1⟩

/-- C18: the variable name is encoded without a bounds check (for every name the
encoder stores at all of the indices 0..len(name), whatever the capacity), yet
stays in bounds for the calls the handlers make.  When `VariableName` has at
least 48 bytes (it has 1024 in the kernel), `len(name) + 1` is within its
capacity in wide units for LoaderEntryRebootReason and LoaderEntryOneShot, and
in every request of either handler that reaches the store the encoder of the
name stored only at valid indices. -/
theorem C18_names_in_bounds (K : Headers) (E : Env) (event : Nat) (data : Option CStr)
    (t : List Event) (h : 48 ≤ K.sizeof_VariableName) :
    (∀ name value raw,
      (request_of K name value raw).name.writes = List.range (strlen name + 1)) ∧
    strlen LoaderEntryRebootReason + 1 ≤ K.sizeof_VariableName / sizeof_efi_char16_t ∧
    strlen LoaderEntryOneShot + 1 ≤ K.sizeof_VariableName / sizeof_efi_char16_t ∧
    (∀ req ∈ store_calls (events_since t (efibc_reboot_notifier_call K E event data t).2),
      req.name.cells.length = K.sizeof_VariableName / sizeof_efi_char16_t ∧
      ∀ j ∈ req.name.writes, j < req.name.cells.length) ∧
    (∀ req ∈ store_calls (events_since t (efibc_panic_notifier_call K E event data t).2),
      req.name.cells.length = K.sizeof_VariableName / sizeof_efi_char16_t ∧
      ∀ j ∈ req.name.writes, j < req.name.cells.length) := by
  have hR : strlen LoaderEntryRebootReason = 23 := by decide
  have hO : strlen LoaderEntryOneShot = 18 := by decide
  have hcap : 24 ≤ K.sizeof_VariableName / sizeof_efi_char16_t := by
    simp only [sizeof_efi_char16_t]
    omega
  have inb : ∀ (name value : CStr) (raw : List Nat × List Nat × List Nat),
      strlen name + 1 ≤ K.sizeof_VariableName / sizeof_efi_char16_t →
      (request_of K name value raw).name.cells.length
          = K.sizeof_VariableName / sizeof_efi_char16_t ∧
        ∀ j ∈ (request_of K name value raw).name.writes,
          j < (request_of K name value raw).name.cells.length := by
    intro name value raw hn
    refine ⟨request_name_length K name value raw, ?_⟩
    intro j hj
    rw [request_name_writes, List.mem_range] at hj
    rw [request_name_length]
    omega
  have first : ∀ (value : CStr),
      ∀ req ∈ store_calls (events_since t
        (efibc_set_variable K E LoaderEntryRebootReason value t).2),
      req.name.cells.length = K.sizeof_VariableName / sizeof_efi_char16_t ∧
      ∀ j ∈ req.name.writes, j < req.name.cells.length := by
    intro value req hreq
    obtain ⟨_, raw, _, rfl⟩ := set_variable_store_mem K E _ _ t req hreq
    exact inb _ _ raw (by rw [hR]; omega)
  refine ⟨fun name value raw => request_name_writes K name value raw,
    by rw [hR]; omega, by rw [hO]; omega, ?_, ?_⟩
  · intro req hreq
    rcases reboot_trace_cases K E event data t with e | ⟨s, _, _, e⟩
    · rw [e] at hreq
      exact first _ req hreq
    · rw [e, store_calls_append, List.mem_append] at hreq
      rcases hreq with h1 | h2
      · exact first _ req h1
      · obtain ⟨_, raw, _, rfl⟩ := set_variable_store_mem K E _ _ _ req h2
        exact inb _ _ raw (by rw [hO]; omega)
  · intro req hreq
    exact first (panic_reason data) req hreq

theorem C18_names_in_bounds_witness :
    48 ≤ linux.sizeof_VariableName ∧
    strlen LoaderEntryRebootReason + 1 ≤ linux.sizeof_VariableName / sizeof_efi_char16_t ∧
    strlen LoaderEntryOneShot + 1 ≤ linux.sizeof_VariableName / sizeof_efi_char16_t ∧
    (∀ req ∈ store_calls (events_since []
        (efibc_reboot_notifier_call linux env_ok 1 (some (lit "entry-X")) []).2),
      req.name.cells.length = linux.sizeof_VariableName / sizeof_efi_char16_t ∧
      ∀ j ∈ req.name.writes, j < req.name.cells.length) :=
  ⟨by decide,
    (C18_names_in_bounds linux env_ok 1 (some (lit "entry-X")) [] (by decide)).2.1,
    (C18_names_in_bounds linux env_ok 1 (some (lit "entry-X")) [] (by decide)).2.2.1,
    (C18_names_in_bounds linux env_ok 1 (some (lit "entry-X")) [] (by decide)).2.2.2.1⟩

/-- C19: with distinct non-zero errno constants, two facts.  First, when the
value fits the ceiling but `kmalloc` returns NULL, `efibc_set_variable` returns
`-ENOMEM` having logged the failure and made no store call; the result is
neither 0 nor the too-large error, and it is no code of the store, which was not
called.  Second, when the allocation fails during the reboot-reason write, the
reboot handler stops there: it makes no call for LoaderEntryOneShot, whatever
the one-shot argument, and nothing reaches the store. -/
theorem C19_alloc_failure (K : Headers) (E : Env) (name value : CStr) (event : Nat)
    (data : Option CStr) (t : List Event)
    (h0 : K.ENOMEM ≠ 0) (h1 : K.ENOMEM ≠ K.EINVAL) :
    ((strlen value + 1) * sizeof_efi_char16_t ≤ K.sizeof_Data →
      E.kmalloc (t ++ [Event.set_variable name value]) = none →
        (efibc_set_variable K E name value t).1 = -(K.ENOMEM : Int) ∧
        events_since t (efibc_set_variable K E name value t).2 =
          [Event.set_variable name value, Event.kmalloc false, Event.pr_err_alloc name] ∧
        store_calls (events_since t (efibc_set_variable K E name value t).2) = [] ∧
        (efibc_set_variable K E name value t).1 ≠ 0 ∧
        (efibc_set_variable K E name value t).1 ≠ -(K.EINVAL : Int)) ∧
    ((strlen (reboot_reason K event) + 1) * sizeof_efi_char16_t ≤ K.sizeof_Data →
      E.kmalloc (t ++ [Event.set_variable LoaderEntryRebootReason (reboot_reason K event)])
          = none →
        set_variable_calls (events_since t (efibc_reboot_notifier_call K E event data t).2)
          = [(LoaderEntryRebootReason, reboot_reason K event)] ∧
        store_calls (events_since t (efibc_reboot_notifier_call K E event data t).2) = []) := by
  constructor
  · intro hfit hk
    have hs : ¬ (strlen value + 1) * sizeof_efi_char16_t > K.sizeof_Data := by omega
    rw [set_variable_nomem K E name value t hs hk, events_since_append]
    refine ⟨rfl, rfl, rfl, ?_, ?_⟩
    · simpa using h0
    · simpa using h1
  · intro hfitR hkR
    have hsR : ¬ (strlen (reboot_reason K event) + 1) * sizeof_efi_char16_t
        > K.sizeof_Data := by
      omega
    have hret :
        (efibc_set_variable K E LoaderEntryRebootReason (reboot_reason K event) t).1 ≠ 0 := by
      rw [set_variable_nomem K E _ _ t hsR hkR]
      simpa using h0
    have htr := reboot_trace_one K E event data t (Or.inl hret)
    have hscR := set_variable_store_calls K E LoaderEntryRebootReason (reboot_reason K event) t
    simp only [hsR, hkR, if_false] at hscR
    rw [htr, set_variable_calls_since, hscR]
    exact ⟨rfl, rfl⟩

theorem C19_alloc_failure_witness :
    (efibc_set_variable linux env_nomem LoaderEntryOneShot (lit "entry-X") []).1
      = -(linux.ENOMEM : Int) ∧
    events_since [] (efibc_set_variable linux env_nomem LoaderEntryOneShot (lit "entry-X") []).2 =
      [Event.set_variable LoaderEntryOneShot (lit "entry-X"), Event.kmalloc false,
        Event.pr_err_alloc LoaderEntryOneShot] ∧
    store_calls (events_since []
      (efibc_set_variable linux env_nomem LoaderEntryOneShot (lit "entry-X") []).2) = [] ∧
    (efibc_set_variable linux env_nomem LoaderEntryOneShot (lit "entry-X") []).1 ≠ 0 ∧
    (efibc_set_variable linux env_nomem LoaderEntryOneShot (lit "entry-X") []).1
      ≠ -(linux.EINVAL : Int) ∧
    set_variable_calls (events_since []
      (efibc_reboot_notifier_call linux env_nomem 1 (some (lit "entry-X")) []).2)
      = [(LoaderEntryRebootReason, reboot_reason linux 1)] ∧
    store_calls (events_since []
      (efibc_reboot_notifier_call linux env_nomem 1 (some (lit "entry-X")) []).2) = [] :=
  ⟨((C19_alloc_failure linux env_nomem LoaderEntryOneShot (lit "entry-X") 1
      (some (lit "entry-X")) [] (by decide) (by decide)).1 (by decide) rfl).1,
    ((C19_alloc_failure linux env_nomem LoaderEntryOneShot (lit "entry-X") 1
      (some (lit "entry-X")) [] (by decide) (by decide)).1 (by decide) rfl).2.1,
    ((C19_alloc_failure linux env_nomem LoaderEntryOneShot (lit "entry-X") 1
      (some (lit "entry-X")) [] (by decide) (by decide)).1 (by decide) rfl).2.2.1,
    ((C19_alloc_failure linux env_nomem LoaderEntryOneShot (lit "entry-X") 1
      (some (lit "entry-X")) [] (by decide) (by decide)).1 (by decide) rfl).2.2.2.1,
    ((C19_alloc_failure linux env_nomem LoaderEntryOneShot (lit "entry-X") 1
      (some (lit "entry-X")) [] (by decide) (by decide)).1 (by decide) rfl).2.2.2.2,
    ((C19_alloc_failure linux env_nomem LoaderEntryOneShot (lit "entry-X") 1
      (some (lit "entry-X")) [] (by decide) (by decide)).2 (by decide) rfl).1,
    ((C19_alloc_failure linux env_nomem LoaderEntryOneShot (lit "entry-X") 1
      (some (lit "entry-X")) [] (by decide) (by decide)).2 (by decide) rfl).2⟩

/-- C20: encoding is lossless on NUL-free ASCII strings.  For such a string `s`
and a destination that can hold it, the first wide NUL of the output of
`efibc_str_to_str16(s, out)` is at index `len(s)`, reading the units before it
back as bytes yields `s`, and another NUL-free ASCII string with the same
encoded payload (the first `len+1` units) is `s` itself. -/
theorem C20_encoding_lossless (K : Headers) (s : CStr) (out : Str16Buf)
    (hs : ∀ b ∈ s, 1 ≤ b ∧ b ≤ 127) (hN : s.length < out.cells.length) :
    (efibc_str_to_str16 K s out).cells[s.length]? = some 0 ∧
    (∀ i, i < s.length → (efibc_str_to_str16 K s out).cells[i]? ≠ some 0) ∧
    decode16 (efibc_str_to_str16 K s out).cells = s ∧
    (∀ (s2 : CStr) (out2 : Str16Buf), (∀ b ∈ s2, 1 ≤ b ∧ b ≤ 127) →
      s2.length < out2.cells.length →
      (efibc_str_to_str16 K s2 out2).cells.take (s2.length + 1)
        = (efibc_str_to_str16 K s out).cells.take (s.length + 1) →
      s2 = s) := by
  have hc := str16_cells_ascii K s out hs hN
  have htake : ∀ (u : CStr) (o : Str16Buf), (∀ b ∈ u, 1 ≤ b ∧ b ≤ 127) →
      u.length < o.cells.length →
      (efibc_str_to_str16 K u o).cells.take (u.length + 1) = u ++ [0] := by
    intro u o hu ho
    rw [str16_cells_ascii K u o hu ho, List.take_append_eq_append_take]
    simp
  refine ⟨?_, ?_, ?_, ?_⟩
  · rw [hc, List.getElem?_append_right (Nat.le_refl _)]
    simp
  · intro i hi
    rw [hc, List.getElem?_append_left hi, List.getElem?_eq_getElem hi]
    intro h
    have := (hs _ (List.getElem_mem hi)).1
    have h2 : s[i] = 0 := Option.some.inj h
    omega
  · rw [hc]
    exact decode16_append s _ hs
  · intro s2 out2 hs2 hN2 heq
    rw [htake s2 out2 hs2 hN2, htake s out hs hN] at heq
    exact List.append_cancel_right heq

theorem C20_encoding_lossless_witness :
    (efibc_str_to_str16 linux (lit "watchdog") (fresh_buf 16 [])).cells[(lit "watchdog").length]?
      = some 0 ∧
    decode16 (efibc_str_to_str16 linux (lit "watchdog") (fresh_buf 16 [])).cells
      = lit "watchdog" :=
  ⟨(C20_encoding_lossless linux (lit "watchdog") (fresh_buf 16 []) (by decide) (by decide)).1,
    (C20_encoding_lossless linux (lit "watchdog") (fresh_buf 16 []) (by decide)
      (by decide)).2.2.1⟩

end Efibc
